import Mathlib

/-!
Shallow embedding of the Shopify POS backend (src/main.py, src/webhooks.py,
src/shopify.py, src/models.py) and proofs about its synchronization,
order-creation and webhook logic.

Modelling conventions:
* SQLAlchemy rows become Lean structures; a table is a `List` of rows in
  iteration (insertion) order, so `query(...).first()` is `List.find?` and
  `query(...).all()` is `List.filter`.
* Python `float` money values are modelled as `ℚ` (the code only adds,
  subtracts and multiplies them).
* A JSON field that may be absent or `null` is an `Option`; `d.get(k, v)`
  is `Option.getD v`.  Python truthiness of optional strings / ints is
  `strTruthy` / `intTruthy` (`None`, `""` and `0` are falsy).
* Remote (Shopify) HTTP responses are passed in explicitly as environment
  values, since the code treats them as opaque inputs.
-/

/-- Python truthiness of an optional string: `None` and `""` are falsy. -/
def strTruthy : Option String → Bool
  | none => false
  | some s => !(s == "")

/-- Python truthiness of an optional integer: `None` and `0` are falsy. -/
def intTruthy : Option Int → Bool
  | none => false
  | some n => !(n == 0)

/-- Row of the `products` table (src/models.py, class Product).  `id` is the
local autoincrement primary key. -/
structure ProductRow where
  id : Nat
  shopify_id : Option Int
  shopify_product_id : Option Int
  title : Option String
  sku : Option String
  barcode : Option String
  price : ℚ
  inventory_quantity : Int
  variant_title : Option String
  image_url : Option String
  deriving DecidableEq

/-- Row of the `customers` table (src/models.py, class Customer). -/
structure CustomerRow where
  id : Nat
  shopify_id : Option Int
  first_name : Option String
  last_name : Option String
  email : Option String
  phone : Option String
  address : Option String
  city : Option String
  country : Option String
  deriving DecidableEq

/-- Row of the `orders` table (src/models.py, class Order): one row per line
item, several rows may share one `shopify_order_id`. -/
structure OrderRow where
  shopify_order_id : Option Int
  customer_id : Option Nat
  product_id : Option Nat
  barcode : Option String
  title : Option String
  quantity : Int
  price : ℚ
  payment_method : String
  status : String
  deriving DecidableEq

/-- Row of the `webhook_events` audit table (src/models.py, WebhookEvent). -/
structure WebhookEventRow where
  topic : String
  shopify_id : Option Int
  payload : String
  status : String
  error_message : Option String
  deriving DecidableEq

/-- The local relational store: the four tables plus the autoincrement
counters for the two tables whose generated ids the code reads back. -/
structure StoreState where
  products : List ProductRow
  customers : List CustomerRow
  orders : List OrderRow
  webhook_events : List WebhookEventRow
  next_product_id : Nat
  next_customer_id : Nat
  deriving DecidableEq

/-- The store right after `init_db`: all tables empty. -/
def emptyStore : StoreState := ⟨[], [], [], [], 0, 0⟩

/-- A variant object inside a remote product payload. -/
structure RemoteVariant where
  id : Option Int
  title : Option String
  sku : Option String
  barcode : Option String
  price : Option ℚ
  inventory_quantity : Option Int
  image_id : Option Int
  deriving DecidableEq

/-- An image object inside a remote product payload. -/
structure RemoteImage where
  id : Option Int
  src : Option String
  deriving DecidableEq

/-- A remote product payload as returned by the catalog fetcher. -/
structure RemoteProduct where
  id : Option Int
  title : Option String
  images : List RemoteImage
  variants : List RemoteVariant
  deriving DecidableEq

/-- An address object inside a remote customer payload. -/
structure RemoteAddress where
  address1 : Option String
  address2 : Option String
  city : Option String
  country : Option String
  deriving DecidableEq

/-- A remote customer payload. -/
structure RemoteCustomer where
  id : Option Int
  first_name : Option String
  last_name : Option String
  email : Option String
  phone : Option String
  addresses : List RemoteAddress
  deriving DecidableEq

/-- Keep an optional string when it is truthy, as a (0- or 1-element) list;
used for building `address_parts`. -/
def optTruthyList : Option String → List String
  | none => []
  | some s => if s == "" then [] else [s]

/-- Address derivation shared by sync_customers, the customer webhook and the
order endpoints (src/main.py lines 352-366 and the identical copies): only
the FIRST remote address is used; `address1`/`address2` are joined with a
space when truthy; the result is `None` when no part is truthy. -/
def extractAddress (addrs : List RemoteAddress) :
    Option String × Option String × Option String :=
  match addrs.head? with
  | none => (none, none, none)
  | some addr =>
      let parts := optTruthyList addr.address1 ++ optTruthyList addr.address2
      let address_str := if parts.isEmpty then none
        else some (String.intercalate " " parts)
      (address_str, addr.city, addr.country)

/-- Replace the first element satisfying `p` by its image under `f`; this is
how a SQLAlchemy `query(...).first()` followed by attribute mutation acts on
the table, seen as a list of rows. -/
def updateFirst (p : α → Bool) (f : α → α) : List α → List α
  | [] => []
  | x :: xs => if p x then f x :: xs else x :: updateFirst p f xs

/-- State threaded through one bulk sync pass (src/main.py lines 153-156 and
335-337): the table rows, the autoincrement counter, the `added` / `updated`
/ `skipped_no_barcode` counters, and the transient set of already-processed
external keys. -/
structure UpsertState (ρ : Type) where
  rows : List ρ
  next_id : Nat
  added : Nat
  updated : Nat
  skipped : Nat
  seen : List Int
  deriving DecidableEq

section Upsert

variable {ι ρ : Type}
variable (key : ι → Option Int) (rowKey : ρ → Option Int)
variable (mk : Nat → ι → Int → ρ) (upd : ι → ρ → ρ)

/-- One iteration of the bulk-sync upsert loop body (src/main.py lines
168-214 for products, 339-396 for customers): skip a record missing its
required key (counting it as skipped), silently drop a record whose key was
already seen in this pass, otherwise look the key up and either overwrite
the first matching row or append a fresh one. -/
def upsertStep (it : ι) (st : UpsertState ρ) : UpsertState ρ :=
  match key it with
  | none => { st with skipped := st.skipped + 1 }
  | some k =>
    if k ∈ st.seen then st
    else
      let st1 := { st with seen := k :: st.seen }
      match st1.rows.find? (fun r => rowKey r == some k) with
      | some _ =>
          { st1 with
            rows := updateFirst (fun r => rowKey r == some k) (upd it) st1.rows,
            updated := st1.updated + 1 }
      | none =>
          { st1 with
            rows := st1.rows ++ [mk st1.next_id it k],
            next_id := st1.next_id + 1,
            added := st1.added + 1 }

/-- The bulk-sync upsert loop over a list of records, in order. -/
def upsertList : List ι → UpsertState ρ → UpsertState ρ
  | [], st => st
  | it :: rest, st => upsertList rest (upsertStep key rowKey mk upd it st)

/-- The external keys a sync pass starting with `seen` actually processes
(neither skipped for a missing key nor dropped by the in-pass dedup set), in
processing order.  This depends only on the input records, not on the table. -/
def processedKeys : List ι → List Int → List Int
  | [], _ => []
  | it :: rest, seen =>
    match key it with
    | none => processedKeys rest seen
    | some k =>
        if k ∈ seen then processedKeys rest seen
        else k :: processedKeys rest (k :: seen)

end Upsert

/-- The external keys present in a table. -/
def rowKeys (rowKey : ρ → Option Int) (rows : List ρ) : List Int :=
  rows.filterMap rowKey

/-- One variant of one remote product, paired with the product-level data the
inner loop of `sync_products` reads (src/main.py lines 158-168): the parent
product id, the product title with its `"Unknown Product"` default, and the
image URL taken from the first product image. -/
structure VariantItem where
  product_id : Option Int
  product_title : String
  image_url : Option String
  variant : RemoteVariant
  deriving DecidableEq

/-- The external key of a variant record, or `none` when the record is
skipped: `sync_products` skips a variant without a truthy barcode or a
truthy variant id (src/main.py lines 169-175). -/
def variantKey (it : VariantItem) : Option Int :=
  if strTruthy it.variant.barcode && intTruthy it.variant.id then it.variant.id
  else none

/-- The table key of a product row. -/
def prodRowKey (r : ProductRow) : Option Int := r.shopify_id

/-- The fresh product row `sync_products` INSERTs (src/main.py lines 200-214). -/
def mkProductRow (nid : Nat) (it : VariantItem) (k : Int) : ProductRow :=
  ⟨nid, some k, it.product_id, some it.product_title, it.variant.sku,
    it.variant.barcode, it.variant.price.getD 0,
    it.variant.inventory_quantity.getD 0, it.variant.title, it.image_url⟩

/-- The field overwrite `sync_products` performs on an existing product row
(src/main.py lines 189-199); the local id and external id are untouched. -/
def updateProductRow (it : VariantItem) (r : ProductRow) : ProductRow :=
  { r with
    shopify_product_id := it.product_id,
    title := some it.product_title,
    sku := it.variant.sku,
    barcode := it.variant.barcode,
    price := it.variant.price.getD 0,
    inventory_quantity := it.variant.inventory_quantity.getD 0,
    variant_title := it.variant.title,
    image_url := it.image_url }

/-- The variant items of one remote product, in the order of the inner loop. -/
def productItems (p : RemoteProduct) : List VariantItem :=
  p.variants.map (fun v =>
    ⟨p.id, p.title.getD "Unknown Product",
      (p.images.head?).bind (fun img => img.src), v⟩)

/-- All variant items of a remote catalog, in the order of the two nested
loops of `sync_products`. -/
def flattenRemoteProducts (remote : List RemoteProduct) : List VariantItem :=
  (remote.map productItems).flatten

/-- The report `sync_products` returns (src/main.py lines 221-227). -/
structure SyncReport where
  added : Nat
  updated : Nat
  skipped_no_barcode : Nat
  total_products : Nat
  deriving DecidableEq

/-- Bulk product sync (src/main.py lines 142-227, `sync_products`): upsert
every variant of every remote product into the local `products` table,
skipping variants without a barcode or variant id, deduplicating on the
variant id within the pass, and committing once at the end. -/
def sync_products (remote : List RemoteProduct) (s : StoreState) :
    SyncReport × StoreState :=
  let st0 : UpsertState ProductRow :=
    ⟨s.products, s.next_product_id, 0, 0, 0, []⟩
  let stf := remote.foldl
    (fun st p =>
      upsertList variantKey prodRowKey mkProductRow updateProductRow
        (productItems p) st)
    st0
  (⟨stf.added, stf.updated, stf.skipped, remote.length⟩,
    { s with products := stf.rows, next_product_id := stf.next_id })

/-- The external key of a remote customer record, or `none` when skipped:
`sync_customers` skips a record without a truthy id (src/main.py 340-343). -/
def customerKey (c : RemoteCustomer) : Option Int :=
  if intTruthy c.id then c.id else none

/-- The table key of a customer row. -/
def custRowKey (r : CustomerRow) : Option Int := r.shopify_id

/-- The fresh customer row `sync_customers` INSERTs (src/main.py 383-396). -/
def mkCustomerRow (nid : Nat) (c : RemoteCustomer) (k : Int) : CustomerRow :=
  let a := extractAddress c.addresses
  ⟨nid, some k, c.first_name, c.last_name, c.email, c.phone,
    a.1, a.2.1, a.2.2⟩

/-- The field overwrite `sync_customers` performs on an existing customer row
(src/main.py 373-382); the local id and external id are untouched. -/
def updateCustomerRow (c : RemoteCustomer) (r : CustomerRow) : CustomerRow :=
  let a := extractAddress c.addresses
  { r with
    first_name := c.first_name,
    last_name := c.last_name,
    email := c.email,
    phone := c.phone,
    address := a.1,
    city := a.2.1,
    country := a.2.2 }

/-- The report `sync_customers` returns (src/main.py 403-408). -/
structure CustomerSyncReport where
  added : Nat
  updated : Nat
  total_customers : Nat
  deriving DecidableEq

/-- Bulk customer sync (src/main.py lines 325-408, `sync_customers`): upsert
every remote customer into the local `customers` table, skipping records
without an id, deduplicating on the customer id within the pass, and
committing once at the end. -/
def sync_customers (remote : List RemoteCustomer) (s : StoreState) :
    CustomerSyncReport × StoreState :=
  let st0 : UpsertState CustomerRow :=
    ⟨s.customers, s.next_customer_id, 0, 0, 0, []⟩
  let stf := upsertList customerKey custRowKey mkCustomerRow updateCustomerRow
    remote st0
  (⟨stf.added, stf.updated, remote.length⟩,
    { s with customers := stf.rows, next_customer_id := stf.next_id })

/-- The duplicated variant-selection block of the order endpoints
(src/main.py lines 994-1009 in `create_order_from_cart` and 1218-1236 in
`create_order_endpoint`): query all products with the barcode, take the
first one with positive inventory, else the first match, else nothing. -/
def selectVariant (products : List ProductRow) (b : String) : Option ProductRow :=
  let found := products.filter (fun r => r.barcode == some b)
  match found.find? (fun r => decide (0 < r.inventory_quantity)) with
  | some p => some p
  | none => found.head?

/-- One element of the `items` list of a cart order request; every field is
read with `.get` and a default in the code, hence all optional here. -/
structure CartItemReq where
  item_type : Option String
  quantity : Option Int
  title : Option String
  size : Option String
  price : Option ℚ
  barcode : Option String
  deriving DecidableEq

/-- The inline new-customer payload of a cart order (Pydantic model
`NewCustomerInOrder`).  Its optional `address` sub-payload is sent to the
remote platform only and never read locally (the local row is built from the
remote response), so it is not modelled. -/
structure NewCustomerPayload where
  first_name : String
  last_name : String
  email : String
  phone : Option String
  deriving DecidableEq

/-- A cart order request (Pydantic model `CartOrder`); `discount` and
`discount_reason` have defaults `0` and `"Store discount"`. -/
structure CartOrderReq where
  items : List CartItemReq
  payment_method : String
  email : Option String
  new_customer : Option NewCustomerPayload
  discount : ℚ
  discount_reason : String
  deriving DecidableEq

/-- The error outcomes of `create_order_from_cart` (each is one of the
`HTTPException`s raised in src/main.py lines 801-1087). -/
inductive CartError where
  | emptyItems
  | invalidPayment
  | neitherCustomer
  | bothCustomer
  | customerCreateFailed
  | customerNotFound
  | noValidProducts
  | discountTooLarge
  | orderCreateFailed
  deriving DecidableEq

/-- The remote responses an order-creation request may consume: the customer
creation response, the customer e-mail search response, and the id of the
order returned by the remote order-creation call (`none` models a call that
fails or returns no order). -/
structure CartEnv where
  create_customer_resp : Option RemoteCustomer
  search_customer_resp : List RemoteCustomer
  create_order_resp : Option Int
  deriving DecidableEq

/-- A line item of the remote order-creation payload. -/
structure LineItemOut where
  title : Option String
  quantity : Int
  price : ℚ
  variant_id : Option Int
  deriving DecidableEq

/-- A pending local order record accumulated in `local_orders`
(src/main.py lines 973-981 and 1019-1027) before the remote call. -/
inductive PendingLocal where
  | customItem (title : String) (quantity : Int) (price : ℚ)
  | barcodeItem (product : ProductRow) (quantity : Int) (barcode : String)
  deriving DecidableEq

/-- Processing of one cart item (src/main.py lines 950-1031): a custom item
is dropped when its title is missing/empty or its price is not positive; a
barcode item is dropped when the barcode is missing/empty or matches no
local variant, and otherwise uses `selectVariant`.  Returns the remote line
item, the pending local record and the amount added to the running total. -/
def acceptItem (it : CartItemReq) (products : List ProductRow) :
    Option (LineItemOut × PendingLocal × ℚ) :=
  let item_type := it.item_type.getD "barcode"
  let quantity := it.quantity.getD 1
  if item_type = "custom" then
    let custom_size := it.size.getD ""
    let custom_price := it.price.getD 0
    match it.title with
    | none => none
    | some t =>
        if t = "" ∨ custom_price ≤ 0 then none
        else
          let full_title := if custom_size = "" then t else t ++ " - " ++ custom_size
          some (⟨some full_title, quantity, custom_price, none⟩,
            PendingLocal.customItem full_title quantity custom_price,
            custom_price * (quantity : ℚ))
  else
    match it.barcode with
    | none => none
    | some b =>
        if b = "" then none
        else
          match selectVariant products b with
          | none => none
          | some product =>
              some (⟨product.title, quantity, product.price, product.shopify_id⟩,
                PendingLocal.barcodeItem product quantity b,
                product.price * (quantity : ℚ))

/-- The cart-item loop (src/main.py lines 950-1031): the remote line items,
the pending local records (both in cart order) and the pre-discount total. -/
def processCartItems : List CartItemReq → List ProductRow →
    List LineItemOut × List PendingLocal × ℚ
  | [], _ => ([], [], 0)
  | it :: rest, products =>
      let r := processCartItems rest products
      match acceptItem it products with
      | none => r
      | some (l, pnd, amt) => (l :: r.1, pnd :: r.2.1, amt + r.2.2)

/-- The discount policy (src/main.py lines 1039-1048): only a positive
discount is checked at all, and it must be strictly below the pre-discount
total; otherwise it is subtracted. -/
def applyDiscount (discount total : ℚ) : Except CartError ℚ :=
  if 0 < discount then
    if total ≤ discount then Except.error CartError.discountTooLarge
    else Except.ok (total - discount)
  else Except.ok total

/-- The local order row written for one accepted cart item after the remote
order succeeded (src/main.py lines 1091-1122). -/
def mkLocalOrder (oid : Int) (customer : CustomerRow) (pm : String) :
    PendingLocal → OrderRow
  | PendingLocal.customItem t q pr =>
      ⟨some oid, some customer.id, none, none, some t, q, pr, pm, "completed"⟩
  | PendingLocal.barcodeItem prod q b =>
      ⟨some oid, some customer.id, some prod.id, some b, prod.title, q,
        prod.price, pm, "completed"⟩

/-- Build the local customer row saved from a remote customer payload
(src/main.py lines 883-897, 925-938, 1266-1278, 1468-1481). -/
def customerRowFromRemote (nid : Nat) (rc : RemoteCustomer) : CustomerRow :=
  let a := extractAddress rc.addresses
  ⟨nid, rc.id, rc.first_name, rc.last_name, rc.email, rc.phone, a.1, a.2.1, a.2.2⟩

/-- Customer resolution of a cart order (src/main.py lines 826-943): with a
`new_customer` payload, reuse a local row with the same e-mail, else create
the customer remotely and commit the local copy; with an `email`, use the
local row, else search remotely and commit the local copy, else fail.  The
committed customer persists even if the order request fails later. -/
def resolveCartCustomer (env : CartEnv) (req : CartOrderReq) (s : StoreState) :
    Except CartError (CustomerRow × StoreState) :=
  match req.new_customer with
  | some nc =>
      match s.customers.find? (fun c => c.email == some nc.email) with
      | some existing => Except.ok (existing, s)
      | none =>
          match env.create_customer_resp with
          | none => Except.error CartError.customerCreateFailed
          | some rc =>
              let row := customerRowFromRemote s.next_customer_id rc
              Except.ok (row,
                { s with
                  customers := s.customers ++ [row],
                  next_customer_id := s.next_customer_id + 1 })
  | none =>
      match s.customers.find? (fun c => c.email == req.email) with
      | some c => Except.ok (c, s)
      | none =>
          match env.search_customer_resp.head? with
          | some rc =>
              let row := customerRowFromRemote s.next_customer_id rc
              Except.ok (row,
                { s with
                  customers := s.customers ++ [row],
                  next_customer_id := s.next_customer_id + 1 })
          | none => Except.error CartError.customerNotFound

/-- The successful outcome of a cart order: the remote order id, the local
rows inserted, and the pre- and post-discount amounts. -/
structure CartSuccess where
  shopify_order_id : Int
  created_orders : List OrderRow
  original_amount : ℚ
  final_amount : ℚ
  deriving DecidableEq

/-- The cart order steps after customer resolution (src/main.py lines
945-1124): process the items, fail if none were accepted, apply the
discount policy, issue the remote order-creation call, and only on its
success insert one local row per accepted item in a single commit. -/
def cartAfterCustomer (env : CartEnv) (req : CartOrderReq)
    (customer : CustomerRow) (s1 : StoreState) :
    Except CartError CartSuccess × StoreState :=
  let r := processCartItems req.items s1.products
  if r.1.isEmpty then (Except.error CartError.noValidProducts, s1)
  else
    match applyDiscount req.discount r.2.2 with
    | Except.error e => (Except.error e, s1)
    | Except.ok final =>
        match env.create_order_resp with
        | none => (Except.error CartError.orderCreateFailed, s1)
        | some oid =>
            let newRows := r.2.1.map (mkLocalOrder oid customer req.payment_method)
            (Except.ok ⟨oid, newRows, r.2.2, final⟩,
              { s1 with orders := s1.orders ++ newRows })

/-- Cart checkout (src/main.py lines 750-1186, `create_order_from_cart`):
the four up-front validations, then customer resolution, then the item /
discount / remote-order pipeline. -/
def create_order_from_cart (env : CartEnv) (req : CartOrderReq) (s : StoreState) :
    Except CartError CartSuccess × StoreState :=
  if req.items.isEmpty then (Except.error CartError.emptyItems, s)
  else if ¬ (req.payment_method = "cash" ∨ req.payment_method = "pos") then
    (Except.error CartError.invalidPayment, s)
  else if strTruthy req.email = false ∧ req.new_customer = none then
    (Except.error CartError.neitherCustomer, s)
  else if strTruthy req.email = true ∧ req.new_customer ≠ none then
    (Except.error CartError.bothCustomer, s)
  else
    match resolveCartCustomer env req s with
    | Except.error e => (Except.error e, s)
    | Except.ok (customer, s1) => cartAfterCustomer env req customer s1

/-- A manual order request (Pydantic model `ManualOrder`); `size`, `quantity`,
`payment_method` and `discount` default to `""`, `1`, `"cash"` and `0`. -/
structure ManualOrderReq where
  title : String
  size : String
  price : ℚ
  quantity : Int
  payment_method : String
  email : Option String
  discount : ℚ
  deriving DecidableEq

/-- The error outcomes of `create_manual_order_endpoint` (src/main.py lines
1408-1502). -/
inductive ManualError where
  | missingTitle
  | invalidPrice
  | invalidPayment
  | invalidQuantity
  | discountTooLarge
  | orderCreateFailed
  deriving DecidableEq

/-- The successful outcome of a manual order. -/
structure ManualSuccess where
  shopify_order_id : Int
  order : OrderRow
  original_amount : ℚ
  final_amount : ℚ
  deriving DecidableEq

/-- Optional customer lookup of a manual order (src/main.py lines
1442-1481): only with a truthy e-mail; a remote hit is committed locally; a
miss leaves the order anonymous rather than failing. -/
def resolveManualCustomer (env : CartEnv) (email : Option String)
    (s : StoreState) : Option CustomerRow × StoreState :=
  if strTruthy email then
    match s.customers.find? (fun c => c.email == email) with
    | some c => (some c, s)
    | none =>
        match env.search_customer_resp.head? with
        | some rc =>
            let row := customerRowFromRemote s.next_customer_id rc
            (some row,
              { s with
                customers := s.customers ++ [row],
                next_customer_id := s.next_customer_id + 1 })
        | none => (none, s)
  else (none, s)

/-- Manual order creation (src/main.py lines 1377-1549,
`create_manual_order_endpoint`): validations (including the unconditional
`discount >= price * quantity` rejection), optional customer lookup, remote
order creation, then one local row. -/
def create_manual_order (env : CartEnv) (req : ManualOrderReq) (s : StoreState) :
    Except ManualError ManualSuccess × StoreState :=
  if req.title = "" then (Except.error ManualError.missingTitle, s)
  else if req.price ≤ 0 then (Except.error ManualError.invalidPrice, s)
  else if ¬ (req.payment_method = "cash" ∨ req.payment_method = "pos") then
    (Except.error ManualError.invalidPayment, s)
  else if req.quantity < 1 then (Except.error ManualError.invalidQuantity, s)
  else
    let item_total := req.price * (req.quantity : ℚ)
    if item_total ≤ req.discount then (Except.error ManualError.discountTooLarge, s)
    else
      let final_amount := item_total - req.discount
      let rc := resolveManualCustomer env req.email s
      match env.create_order_resp with
      | none => (Except.error ManualError.orderCreateFailed, rc.2)
      | some oid =>
          let full_title := if req.size = "" then req.title
            else req.title ++ " - " ++ req.size
          let row : OrderRow := ⟨some oid, rc.1.map (fun c => c.id), none, none,
            some full_title, req.quantity, req.price, req.payment_method,
            "completed"⟩
          (Except.ok ⟨oid, row, item_total, final_amount⟩,
            { rc.2 with orders := rc.2.orders ++ [row] })

/-- A product webhook payload (topics products/create, products/update). -/
structure ProductWebhookPayload where
  id : Option Int
  title : Option String
  images : List RemoteImage
  image : Option RemoteImage
  variants : List RemoteVariant
  deriving DecidableEq

/-- Image resolution for one webhook variant (src/webhooks.py lines 39-48):
match the variant image id against the payload images, else fall back to
the product-level image. -/
def webhookVariantImage (p : ProductWebhookPayload) (v : RemoteVariant) :
    Option String :=
  if intTruthy v.image_id && !p.images.isEmpty then
    match p.images.find? (fun img => img.id == v.image_id) with
    | some img => img.src
    | none => none
  else
    match p.image with
    | some img => img.src
    | none => none

/-- Processing of one variant of a product webhook (src/webhooks.py lines
25-74): upsert on the variant id with NO barcode filter — a variant without
a barcode is persisted with a null barcode. -/
def productWebhookStep (p : ProductWebhookPayload) (v : RemoteVariant)
    (s : StoreState) : StoreState :=
  let image_url := webhookVariantImage p v
  match s.products.find? (fun r => r.shopify_id == v.id) with
  | some _ =>
      { s with
        products := updateFirst (fun r => r.shopify_id == v.id)
          (fun r =>
            { r with
              title := p.title,
              sku := v.sku,
              barcode := v.barcode,
              price := v.price.getD 0,
              inventory_quantity := v.inventory_quantity.getD 0,
              variant_title := v.title,
              image_url := image_url }) s.products }
  | none =>
      { s with
        products := s.products ++
          [⟨s.next_product_id, v.id, p.id, p.title, v.sku, v.barcode,
            v.price.getD 0, v.inventory_quantity.getD 0, v.title, image_url⟩],
        next_product_id := s.next_product_id + 1 }

/-- Product webhook handler (src/webhooks.py lines 12-80,
`handle_product_webhook`): merge every variant of the payload. -/
def handle_product_webhook (p : ProductWebhookPayload) (s : StoreState) :
    StoreState :=
  p.variants.foldl (fun s v => productWebhookStep p v s) s

/-- A line item of an order webhook payload. -/
structure OrderLineItem where
  variant_id : Option Int
  title : Option String
  quantity : Option Int
  price : Option ℚ
  deriving DecidableEq

/-- The customer reference of an order webhook payload. -/
structure OrderCustomerRef where
  id : Option Int
  deriving DecidableEq

/-- An order webhook payload (topics orders/create, orders/paid,
orders/cancelled). -/
structure OrderWebhookPayload where
  id : Option Int
  financial_status : Option String
  line_items : List OrderLineItem
  customer : Option OrderCustomerRef
  tags : Option String
  gateway : Option String
  deriving DecidableEq

/-- Character-list version of the Python `pat in s` substring test. -/
def charListStartsWith : List Char → List Char → Bool
  | _, [] => true
  | [], _ :: _ => false
  | c :: cs, p :: ps => c == p && charListStartsWith cs ps

/-- Substring occurrence test on character lists. -/
def charListContains : List Char → List Char → Bool
  | [], pat => pat.isEmpty
  | c :: cs, pat => charListStartsWith (c :: cs) pat || charListContains cs pat

/-- The Python substring test `pat in s`. -/
def strContains (s pat : String) : Bool :=
  charListContains s.toList pat.toList

/-- Payment-method inference of the order webhook (src/webhooks.py lines
235-243): tag substring `"cash"`, else gateway substring `"cash"`, else
`"pos"`. -/
def orderWebhookPayment (p : OrderWebhookPayload) : String :=
  let tags := (p.tags.getD "").toLower
  if strContains tags "cash" then "cash"
  else
    match p.gateway with
    | some g => if !(g == "") && strContains g.toLower "cash" then "cash" else "pos"
    | none => "pos"

/-- Order webhook handler (src/webhooks.py lines 196-279,
`handle_order_webhook`): if local rows with the external order id exist,
overwrite only their status with the financial status; otherwise insert one
row per payload line item with best-effort customer/product linkage. -/
def handle_order_webhook (p : OrderWebhookPayload) (s : StoreState) : StoreState :=
  let fs := p.financial_status.getD "pending"
  if s.orders.any (fun r => r.shopify_order_id == p.id) then
    { s with
      orders := s.orders.map (fun r =>
        if r.shopify_order_id == p.id then { r with status := fs } else r) }
  else if p.line_items.isEmpty then s
  else
    let customer_id := match p.customer with
      | some c =>
          match s.customers.find? (fun cr => cr.shopify_id == c.id) with
          | some cr => some cr.id
          | none => none
      | none => none
    let pm := orderWebhookPayment p
    let newRows := p.line_items.map (fun item =>
      let productMatch := if intTruthy item.variant_id then
          s.products.find? (fun r => r.shopify_id == item.variant_id)
        else none
      (⟨p.id, customer_id, productMatch.map (fun r => r.id),
        productMatch.bind (fun r => r.barcode), item.title,
        item.quantity.getD 1, item.price.getD 0, pm, fs⟩ : OrderRow))
    { s with orders := s.orders ++ newRows }

/-- One page of a paginated remote fetch: the records of the page and
whether the response carried a next-page cursor. -/
structure RemotePage (α : Type) where
  records : List α
  has_next : Bool
  deriving DecidableEq

/-- The outcome of one page request. -/
inductive PageResponse (α : Type) where
  | success (page : RemotePage α)
  | failure
  deriving DecidableEq

/-- The cursor-following pagination loop shared verbatim by
`ShopifyAPI.get_all_products` (src/shopify.py 61-105),
`ShopifyAPI.get_all_customers` (147-191), `ShopifyAPI.get_all_orders`
(347-389) and `ShopifyAPI.get_orders_by_date_range` (391-447): on a failed
request it breaks out of the loop (no retry, no raise) and returns the
records accumulated so far; an empty page or a response without a next
cursor also ends the loop. -/
def fetchAllPages {α : Type} : List (PageResponse α) → List α
  | [] => []
  | PageResponse.failure :: _ => []
  | PageResponse.success pg :: rest =>
      if pg.records.isEmpty then []
      else pg.records ++ (if pg.has_next then fetchAllPages rest else [])

/-- The clear-products endpoint (src/main.py lines 301-320,
`clear_products`): a bulk `DELETE` of every product row (no ORM cascade and
the local store does not enforce foreign keys, so order rows keep their
`product_id`), returning the deleted count. -/
def clear_products (s : StoreState) : Nat × StoreState :=
  (s.products.length, { s with products := [] })

/-- A webhook variant carrying no barcode. -/
def noBarcodeVariant : RemoteVariant :=
  ⟨some 10, some "Default Title", none, none, some 5, some 3, none⟩

/-- A product webhook payload whose single variant has no barcode. -/
def noBarcodeProductPayload : ProductWebhookPayload :=
  ⟨some 1, some "Tee", [], none, [noBarcodeVariant]⟩

/-- A remote customer fixture. -/
def c2RemoteCustomer : RemoteCustomer :=
  ⟨some 77, some "Ada", some "L", some "ada@example.com", none, []⟩

/-- Environment: no customer-creation response, one e-mail search hit,
remote order id 900. -/
def c2Env : CartEnv := ⟨none, [c2RemoteCustomer], some 900⟩

/-- A cart whose only item is an empty-titled custom item (rejected), for a
customer that is found remotely but not locally. -/
def c2Req : CartOrderReq :=
  ⟨[⟨some "custom", some 1, some "", some "", some 5, none⟩], "cash",
    some "ada@example.com", none, 0, "Store discount"⟩

/-- A remote variant fixture with barcode and id. -/
def dupVariant : RemoteVariant :=
  ⟨some 5, some "Default", none, some "BC1", some 10, some 3, none⟩

/-- A remote catalog whose single product carries the same variant twice,
simulating pagination duplication. -/
def dupRemoteProducts : List RemoteProduct :=
  [⟨some 1, some "P", [], [dupVariant, dupVariant]⟩]

/-- A remote customer fixture. -/
def dupRemoteCustomer : RemoteCustomer :=
  ⟨some 9, some "A", some "B", some "e@x.com", none, []⟩

/-- A remote customer collection with the same record twice. -/
def dupRemoteCustomers : List RemoteCustomer :=
  [dupRemoteCustomer, dupRemoteCustomer]

/-- A local variant priced 0 with stock. -/
def zeroPriceRow : ProductRow :=
  ⟨0, some 11, some 2, some "Zero", none, some "Z1", 0, 5, none, none⟩

/-- A local customer fixture. -/
def c5Customer : CustomerRow :=
  ⟨0, some 50, some "C", some "D", some "c@d.com", none, none, none, none⟩

/-- Store with the zero-priced variant and a known customer. -/
def c5Store : StoreState := ⟨[zeroPriceRow], [c5Customer], [], [], 1, 1⟩

/-- Environment for the zero-total cart: remote order id 901. -/
def c5Env : CartEnv := ⟨none, [], some 901⟩

/-- A cart of one zero-priced barcode item with discount 0: total 0 and
discount 0, so discount equals the pre-discount total. -/
def c5Req : CartOrderReq :=
  ⟨[⟨none, some 1, none, none, none, some "Z1"⟩], "cash", some "c@d.com",
    none, 0, "Store discount"⟩

/-- The outcome the zero-total cart actually produces. -/
def c5Expected : CartSuccess :=
  ⟨901, [⟨some 901, some 0, some 0, some "Z1", some "Zero", 1, 0, "cash",
    "completed"⟩], 0, 0⟩

/-- Two existing local line rows of external order 500 and one of order 501. -/
def c6Order1 : OrderRow := ⟨some 500, none, none, some "B1", some "X", 1, 10, "pos", "pending"⟩

/-- Second line row of external order 500. -/
def c6Order2 : OrderRow := ⟨some 500, some 0, none, none, some "Y", 2, 7, "cash", "pending"⟩

/-- A line row of a different external order. -/
def c6Other : OrderRow := ⟨some 501, none, none, none, some "Z", 1, 1, "pos", "completed"⟩

/-- Store with two local line rows for order 500 and one for order 501. -/
def c6Store : StoreState := ⟨[], [], [c6Order1, c6Order2, c6Other], [], 0, 0⟩

/-- An orders/paid webhook for order 500 carrying three line items (a
different count than the two local rows). -/
def c6Payload : OrderWebhookPayload :=
  ⟨some 500, some "paid",
    [⟨none, some "L1", some 1, some 3⟩, ⟨none, some "L2", some 1, some 4⟩,
      ⟨none, some "L3", some 1, some 5⟩], none, none, none⟩

/-- A stocked local variant fixture. -/
def c7Prod : ProductRow :=
  ⟨0, some 21, some 3, some "Shirt", none, some "B7", 12, 4, none, none⟩

/-- A local customer fixture. -/
def c7Customer : CustomerRow :=
  ⟨0, some 60, some "E", some "F", some "e@f.com", none, none, none, none⟩

/-- Store with one variant and one customer. -/
def c7Store : StoreState := ⟨[c7Prod], [c7Customer], [], [], 1, 1⟩

/-- Environment with remote order id 905. -/
def c7Env : CartEnv := ⟨none, [], some 905⟩

/-- A cart with three accepted items and one rejected empty-titled custom
item. -/
def c7Req : CartOrderReq :=
  ⟨[⟨some "custom", some 1, some "Mug", some "", some 8, none⟩,
    ⟨some "custom", some 2, some "", some "", some 9, none⟩,
    ⟨none, some 1, none, none, none, some "B7"⟩,
    ⟨some "custom", some 1, some "Cap", some "L", some 6, none⟩],
    "pos", some "e@f.com", none, 0, "Store discount"⟩

/-- A variant with barcode B8 and zero inventory, listed first. -/
def c8Row0 : ProductRow :=
  ⟨0, some 31, none, some "V0", none, some "B8", 5, 0, none, none⟩

/-- A variant with barcode B8 and positive inventory, listed second. -/
def c8Row1 : ProductRow :=
  ⟨1, some 32, none, some "V1", none, some "B8", 6, 2, none, none⟩

/-- First successful page of a paginated fetch. -/
def c9Page1 : RemotePage Nat := ⟨[1, 2], true⟩

/-- Second successful page of a paginated fetch. -/
def c9Page2 : RemotePage Nat := ⟨[3], true⟩
/-- Decidable equality of request outcomes, for evaluating the model on
concrete inputs. -/
instance {ε α : Type} [DecidableEq ε] [DecidableEq α] :
    DecidableEq (Except ε α)
  | Except.error e1, Except.error e2 =>
      if h : e1 = e2 then Decidable.isTrue (by rw [h])
      else Decidable.isFalse (fun hc => h (by injection hc))
  | Except.error _, Except.ok _ =>
      Decidable.isFalse (fun hc => Except.noConfusion hc)
  | Except.ok _, Except.error _ =>
      Decidable.isFalse (fun hc => Except.noConfusion hc)
  | Except.ok x1, Except.ok x2 =>
      if h : x1 = x2 then Decidable.isTrue (by rw [h])
      else Decidable.isFalse (fun hc => h (by injection hc))

/-- A cart order request with an empty items list. -/
def c2EmptyReq : CartOrderReq :=
  ⟨[], "cash", some "ada@example.com", none, 0, "Store discount"⟩

/-- The successful outcome of the three-accepted-items cart. -/
def c7Res : CartSuccess :=
  ⟨905,
    [⟨some 905, some 0, none, none, some "Mug", 1, 8, "pos", "completed"⟩,
      ⟨some 905, some 0, some 0, some "B7", some "Shirt", 1, 12, "pos", "completed"⟩,
      ⟨some 905, some 0, none, none, some "Cap - L", 1, 6, "pos", "completed"⟩],
    26, 26⟩

/-- The store after the three-accepted-items cart committed. -/
def c7Store2 : StoreState :=
  ⟨[c7Prod], [c7Customer], c7Res.created_orders, [], 1, 1⟩

/-- An empty cart carrying a positive discount larger than its (empty) total. -/
def c5aReq : CartOrderReq :=
  ⟨[], "cash", some "x@y.z", none, 5, "Store discount"⟩

/-- A cart of one 12-priced barcode item with discount 5. -/
def c5bReq : CartOrderReq :=
  ⟨[⟨none, some 1, none, none, none, some "B7"⟩], "cash", some "e@f.com",
    none, 5, "Store discount"⟩

/-- A manual order whose discount equals its total. -/
def c5mRejectReq : ManualOrderReq :=
  ⟨"T", "", 10, 1, "cash", none, 10⟩

/-- A manual order whose discount is below its total. -/
def c5mAcceptReq : ManualOrderReq :=
  ⟨"T", "", 10, 1, "cash", none, 3⟩

/-- The upsert-loop state reached by one `sync_products` pass on a store. -/
def prodSyncRun (remote : List RemoteProduct) (s : StoreState) :
    UpsertState ProductRow :=
  upsertList variantKey prodRowKey mkProductRow updateProductRow
    (flattenRemoteProducts remote) ⟨s.products, s.next_product_id, 0, 0, 0, []⟩

/-- The upsert-loop state reached by one `sync_customers` pass on a store. -/
def custSyncRun (remote : List RemoteCustomer) (s : StoreState) :
    UpsertState CustomerRow :=
  upsertList customerKey custRowKey mkCustomerRow updateCustomerRow remote
    ⟨s.customers, s.next_customer_id, 0, 0, 0, []⟩

theorem length_updateFirst (p : α → Bool) (f : α → α) (l : List α) :
    (updateFirst p f l).length = l.length := by
  induction l with
  | nil => rfl
  | cons x xs ih =>
      simp only [updateFirst]
      split <;> simp [ih]

theorem filterMap_updateFirst (p : α → Bool) (f : α → α) (g : α → Option β)
    (hf : ∀ a, g (f a) = g a) (l : List α) :
    (updateFirst p f l).filterMap g = l.filterMap g := by
  induction l with
  | nil => rfl
  | cons x xs ih =>
      simp only [updateFirst]
      split
      · simp [List.filterMap_cons, hf x]
      · simp [List.filterMap_cons, ih]

theorem mem_updateFirst (p : α → Bool) (f : α → α) (P : α → Prop)
    (hf : ∀ a, P (f a)) (l : List α) (hl : ∀ a ∈ l, P a) :
    ∀ a ∈ updateFirst p f l, P a := by
  induction l with
  | nil => simp [updateFirst]
  | cons x xs ih =>
      simp only [updateFirst]
      split
      · intro a ha
        rcases List.mem_cons.mp ha with h | h
        · exact h ▸ hf x
        · exact hl a (List.mem_cons_of_mem _ h)
      · intro a ha
        rcases List.mem_cons.mp ha with h | h
        · exact h ▸ hl x (List.mem_cons_self x xs)
        · exact ih (fun a ha => hl a (List.mem_cons_of_mem _ ha)) a h

theorem find?_rowKey_none_iff (rowKey : ρ → Option Int) (rows : List ρ) (k : Int) :
    rows.find? (fun r => rowKey r == some k) = none ↔ k ∉ rowKeys rowKey rows := by
  rw [List.find?_eq_none]
  simp [rowKeys, List.mem_filterMap]

theorem mem_rowKeys_of_find? (rowKey : ρ → Option Int) (rows : List ρ) (k : Int) (r : ρ)
    (h : rows.find? (fun r => rowKey r == some k) = some r) :
    k ∈ rowKeys rowKey rows := by
  have hmem := List.mem_of_find?_eq_some h
  have hp := List.find?_some h
  simp only [beq_iff_eq] at hp
  exact List.mem_filterMap.mpr ⟨r, hmem, hp⟩


section UpsertLemmas

variable {ι ρ : Type}
variable {key : ι → Option Int} {rowKey : ρ → Option Int}
variable {mk : Nat → ι → Int → ρ} {upd : ι → ρ → ρ}

theorem upsertStep_none {it : ι} {st : UpsertState ρ} (hk : key it = none) :
    upsertStep key rowKey mk upd it st = { st with skipped := st.skipped + 1 } := by
  simp [upsertStep, hk]

theorem upsertStep_dup {it : ι} {st : UpsertState ρ} {k : Int}
    (hk : key it = some k) (hs : k ∈ st.seen) :
    upsertStep key rowKey mk upd it st = st := by
  simp [upsertStep, hk, hs]

theorem upsertStep_update {it : ι} {st : UpsertState ρ} {k : Int} {r : ρ}
    (hk : key it = some k) (hs : ¬ k ∈ st.seen)
    (hf : st.rows.find? (fun r => rowKey r == some k) = some r) :
    upsertStep key rowKey mk upd it st =
      { st with
        rows := updateFirst (fun r => rowKey r == some k) (upd it) st.rows,
        updated := st.updated + 1,
        seen := k :: st.seen } := by
  simp [upsertStep, hk, hs, hf]

theorem upsertStep_insert {it : ι} {st : UpsertState ρ} {k : Int}
    (hk : key it = some k) (hs : ¬ k ∈ st.seen)
    (hf : st.rows.find? (fun r => rowKey r == some k) = none) :
    upsertStep key rowKey mk upd it st =
      { st with
        rows := st.rows ++ [mk st.next_id it k],
        next_id := st.next_id + 1,
        added := st.added + 1,
        seen := k :: st.seen } := by
  simp [upsertStep, hk, hs, hf]

theorem upsertList_append (a b : List ι) (st : UpsertState ρ) :
    upsertList key rowKey mk upd (a ++ b) st =
      upsertList key rowKey mk upd b (upsertList key rowKey mk upd a st) := by
  induction a generalizing st with
  | nil => rfl
  | cons it rest ih => simp [upsertList, ih]

/-- Any key already in the table, and any key the pass processes, is in the
table after the pass. -/
theorem mem_rowKeys_upsertList
    (hupd : ∀ i r, rowKey (upd i r) = rowKey r)
    (hmk : ∀ n i k, rowKey (mk n i k) = some k) :
    ∀ (items : List ι) (st : UpsertState ρ) (k : Int),
      (k ∈ rowKeys rowKey st.rows ∨ k ∈ processedKeys key items st.seen) →
      k ∈ rowKeys rowKey (upsertList key rowKey mk upd items st).rows := by
  intro items
  induction items with
  | nil =>
      intro st k h
      simpa [upsertList, processedKeys] using h
  | cons it rest ih =>
      intro st k h
      simp only [upsertList]
      rcases hk : key it with _ | k'
      · rw [upsertStep_none hk]
        apply ih
        simp only [processedKeys, hk] at h
        exact h
      · by_cases hs : k' ∈ st.seen
        · rw [upsertStep_dup hk hs]
          apply ih
          simp only [processedKeys, hk, if_pos hs] at h
          exact h
        · simp only [processedKeys, hk, if_neg hs] at h
          rcases hf : st.rows.find? (fun r => rowKey r == some k') with _ | r
          · rw [upsertStep_insert hk hs hf]
            apply ih
            show k ∈ rowKeys rowKey (st.rows ++ [mk st.next_id it k']) ∨
              k ∈ processedKeys key rest (k' :: st.seen)
            have happ : rowKeys rowKey (st.rows ++ [mk st.next_id it k']) =
                rowKeys rowKey st.rows ++ [k'] := by
              simp [rowKeys, List.filterMap_append, hmk]
            rcases h with h | h
            · left
              rw [happ]
              exact List.mem_append.mpr (Or.inl h)
            · rcases List.mem_cons.mp h with rfl | h
              · left
                rw [happ]
                simp
              · exact Or.inr h
          · rw [upsertStep_update hk hs hf]
            apply ih
            show k ∈ rowKeys rowKey
                (updateFirst (fun r => rowKey r == some k') (upd it) st.rows) ∨
              k ∈ processedKeys key rest (k' :: st.seen)
            have hkeep : rowKeys rowKey
                (updateFirst (fun r => rowKey r == some k') (upd it) st.rows) =
                rowKeys rowKey st.rows :=
              filterMap_updateFirst (fun r => rowKey r == some k') (upd it) rowKey
                (hupd it) st.rows
            rcases h with h | h
            · left
              rw [hkeep]
              exact h
            · rcases List.mem_cons.mp h with rfl | h
              · left
                rw [hkeep]
                exact mem_rowKeys_of_find? rowKey st.rows k r hf
              · exact Or.inr h

/-- Row count bookkeeping: the table grows by exactly the number of `added`
records. -/
theorem length_upsertList :
    ∀ (items : List ι) (st : UpsertState ρ),
      (upsertList key rowKey mk upd items st).rows.length + st.added =
        st.rows.length + (upsertList key rowKey mk upd items st).added := by
  intro items
  induction items with
  | nil => intro st; rfl
  | cons it rest ih =>
      intro st
      simp only [upsertList]
      rcases hk : key it with _ | k'
      · rw [upsertStep_none hk]
        exact ih _
      · by_cases hs : k' ∈ st.seen
        · rw [upsertStep_dup hk hs]
          exact ih _
        · rcases hf : st.rows.find? (fun r => rowKey r == some k') with _ | r
          · rw [upsertStep_insert hk hs hf]
            have := ih { st with
              rows := st.rows ++ [mk st.next_id it k'],
              next_id := st.next_id + 1,
              added := st.added + 1,
              seen := k' :: st.seen }
            simp only [List.length_append, List.length_singleton] at this ⊢
            omega
          · rw [upsertStep_update hk hs hf]
            have := ih { st with
              rows := updateFirst (fun r => rowKey r == some k') (upd it) st.rows,
              updated := st.updated + 1,
              seen := k' :: st.seen }
            simp only [length_updateFirst] at this ⊢
            omega

/-- If every key the pass will process is already present in the table, the
pass adds nothing. -/
theorem added_upsertList_of_present
    (hupd : ∀ i r, rowKey (upd i r) = rowKey r) :
    ∀ (items : List ι) (st : UpsertState ρ),
      (∀ k ∈ processedKeys key items st.seen, k ∈ rowKeys rowKey st.rows) →
      (upsertList key rowKey mk upd items st).added = st.added := by
  intro items
  induction items with
  | nil => intro st _; rfl
  | cons it rest ih =>
      intro st h
      simp only [upsertList]
      rcases hk : key it with _ | k'
      · rw [upsertStep_none hk]
        apply ih
        simp only [processedKeys, hk] at h
        exact h
      · by_cases hs : k' ∈ st.seen
        · rw [upsertStep_dup hk hs]
          apply ih
          simp only [processedKeys, hk, if_pos hs] at h
          exact h
        · simp only [processedKeys, hk, if_neg hs] at h
          rcases hf : st.rows.find? (fun r => rowKey r == some k') with _ | r
          · exact absurd (h k' (List.mem_cons_self _ _))
              ((find?_rowKey_none_iff rowKey st.rows k').mp hf)
          · rw [upsertStep_update hk hs hf]
            apply ih
            intro k hkmem
            have hkeep : rowKeys rowKey
                (updateFirst (fun r => rowKey r == some k') (upd it) st.rows) =
                rowKeys rowKey st.rows :=
              filterMap_updateFirst (fun r => rowKey r == some k') (upd it) rowKey
                (hupd it) st.rows
            show k ∈ rowKeys rowKey
              (updateFirst (fun r => rowKey r == some k') (upd it) st.rows)
            rw [hkeep]
            exact h k (List.mem_cons_of_mem _ hkmem)

/-- Starting from a table whose keys are all in the dedup set (e.g. the empty
table), a pass performs no updates: a repeated record is dropped by the
dedup set before the table is consulted for it. -/
theorem updated_upsertList_of_fresh
    (hmk : ∀ n i k, rowKey (mk n i k) = some k) :
    ∀ (items : List ι) (st : UpsertState ρ),
      (∀ k ∈ rowKeys rowKey st.rows, k ∈ st.seen) →
      (upsertList key rowKey mk upd items st).updated = st.updated := by
  intro items
  induction items with
  | nil => intro st _; rfl
  | cons it rest ih =>
      intro st h
      simp only [upsertList]
      rcases hk : key it with _ | k'
      · rw [upsertStep_none hk]
        apply ih
        exact h
      · by_cases hs : k' ∈ st.seen
        · rw [upsertStep_dup hk hs]
          exact ih _ h
        · rcases hf : st.rows.find? (fun r => rowKey r == some k') with _ | r
          · rw [upsertStep_insert hk hs hf]
            apply ih
            intro k hkmem
            show k ∈ k' :: st.seen
            have happ : rowKeys rowKey (st.rows ++ [mk st.next_id it k']) =
                rowKeys rowKey st.rows ++ [k'] := by
              simp [rowKeys, List.filterMap_append, hmk]
            rw [show ({ st with
                rows := st.rows ++ [mk st.next_id it k'],
                next_id := st.next_id + 1,
                added := st.added + 1,
                seen := k' :: st.seen } : UpsertState ρ).rows =
              st.rows ++ [mk st.next_id it k'] from rfl, happ] at hkmem
            rcases List.mem_append.mp hkmem with hmem | hmem
            · exact List.mem_cons_of_mem _ (h k hmem)
            · simp at hmem
              exact hmem ▸ List.mem_cons_self _ _
          · exact absurd (h k' (mem_rowKeys_of_find? rowKey st.rows k' r hf)) hs

/-- A pass never introduces a duplicate key into a duplicate-free table: a
record is appended only when its key is absent. -/
theorem nodup_upsertList
    (hupd : ∀ i r, rowKey (upd i r) = rowKey r)
    (hmk : ∀ n i k, rowKey (mk n i k) = some k) :
    ∀ (items : List ι) (st : UpsertState ρ),
      (rowKeys rowKey st.rows).Nodup →
      (rowKeys rowKey (upsertList key rowKey mk upd items st).rows).Nodup := by
  intro items
  induction items with
  | nil => intro st h; exact h
  | cons it rest ih =>
      intro st h
      simp only [upsertList]
      rcases hk : key it with _ | k'
      · rw [upsertStep_none hk]
        exact ih _ h
      · by_cases hs : k' ∈ st.seen
        · rw [upsertStep_dup hk hs]
          exact ih _ h
        · rcases hf : st.rows.find? (fun r => rowKey r == some k') with _ | r
          · rw [upsertStep_insert hk hs hf]
            apply ih
            show (rowKeys rowKey (st.rows ++ [mk st.next_id it k'])).Nodup
            have happ : rowKeys rowKey (st.rows ++ [mk st.next_id it k']) =
                rowKeys rowKey st.rows ++ [k'] := by
              simp [rowKeys, List.filterMap_append, hmk]
            rw [happ, List.nodup_append]
            refine ⟨h, List.nodup_singleton k', ?_⟩
            intro a ha hb
            have hnot := (find?_rowKey_none_iff rowKey st.rows k').mp hf
            have : a = k' := by simpa using hb
            exact hnot (this ▸ ha)
          · rw [upsertStep_update hk hs hf]
            apply ih
            have hkeep : rowKeys rowKey
                (updateFirst (fun r => rowKey r == some k') (upd it) st.rows) =
                rowKeys rowKey st.rows :=
              filterMap_updateFirst (fun r => rowKey r == some k') (upd it) rowKey
                (hupd it) st.rows
            show (rowKeys rowKey
              (updateFirst (fun r => rowKey r == some k') (upd it) st.rows)).Nodup
            rw [hkeep]
            exact h

/-- A key occurring among the records is either already in the dedup set or
gets processed. -/
theorem mem_processedKeys_of_occurs :
    ∀ (items : List ι) (seen : List Int) (k : Int),
      (∃ it ∈ items, key it = some k) →
      k ∈ seen ∨ k ∈ processedKeys key items seen := by
  intro items
  induction items with
  | nil =>
      intro seen k h
      simp at h
  | cons it rest ih =>
      intro seen k h
      rcases h with ⟨it0, hmem, hkey⟩
      rcases List.mem_cons.mp hmem with rfl | hmem
      · simp only [processedKeys, hkey]
        by_cases hs : k ∈ seen
        · exact Or.inl hs
        · simp [if_neg hs]
      · rcases hk : key it with _ | k'
        · simp only [processedKeys, hk]
          exact ih seen k ⟨it0, hmem, hkey⟩
        · by_cases hs : k' ∈ seen
          · simp only [processedKeys, hk, if_pos hs]
            exact ih seen k ⟨it0, hmem, hkey⟩
          · simp only [processedKeys, hk, if_neg hs]
            rcases ih (k' :: seen) k ⟨it0, hmem, hkey⟩ with h | h
            · rcases List.mem_cons.mp h with rfl | h
              · exact Or.inr (List.mem_cons_self _ _)
              · exact Or.inl h
            · exact Or.inr (List.mem_cons_of_mem _ h)

/-- Every row the pass leaves in the table satisfies `P` provided the rows
already did and both the overwrite and the insert of a processed record
produce a `P`-row. -/
theorem upsertList_preserves (P : ρ → Prop)
    (hupdP : ∀ i r k, key i = some k → P (upd i r))
    (hmkP : ∀ n i k, key i = some k → P (mk n i k)) :
    ∀ (items : List ι) (st : UpsertState ρ),
      (∀ r ∈ st.rows, P r) →
      ∀ r ∈ (upsertList key rowKey mk upd items st).rows, P r := by
  intro items
  induction items with
  | nil => intro st h; exact h
  | cons it rest ih =>
      intro st h
      simp only [upsertList]
      rcases hk : key it with _ | k'
      · rw [upsertStep_none hk]
        exact ih _ h
      · by_cases hs : k' ∈ st.seen
        · rw [upsertStep_dup hk hs]
          exact ih _ h
        · rcases hf : st.rows.find? (fun r => rowKey r == some k') with _ | r
          · rw [upsertStep_insert hk hs hf]
            apply ih
            intro r hr
            rcases List.mem_append.mp hr with hr | hr
            · exact h r hr
            · rcases List.mem_cons.mp hr with rfl | hr
              · exact hmkP _ _ _ hk
              · simp at hr
          · rw [upsertStep_update hk hs hf]
            apply ih
            exact mem_updateFirst _ _ P (fun a => hupdP it a k' hk) st.rows h

end UpsertLemmas

/-- Counting rows with a given key is counting that key among the table keys. -/
theorem countP_rowKey_eq_count (rowKey : ρ → Option Int) (rows : List ρ) (k : Int) :
    rows.countP (fun r => rowKey r == some k) = (rowKeys rowKey rows).count k := by
  induction rows with
  | nil => rfl
  | cons r rest ih =>
      rcases hg : rowKey r with _ | k'
      · simp only [List.countP_cons, rowKeys, List.filterMap_cons, hg] at *
        simpa using ih
      · by_cases hk : k' = k
        · subst hk
          simp only [List.countP_cons, rowKeys, List.filterMap_cons, hg,
            List.count_cons] at *
          simp [ih]
        · simp only [List.countP_cons, rowKeys, List.filterMap_cons, hg,
            List.count_cons] at *
          simp [ih, hk, Ne.symm hk]

theorem updateProductRow_key (it : VariantItem) (r : ProductRow) :
    prodRowKey (updateProductRow it r) = prodRowKey r := rfl

theorem mkProductRow_key (n : Nat) (it : VariantItem) (k : Int) :
    prodRowKey (mkProductRow n it k) = some k := rfl

theorem updateCustomerRow_key (c : RemoteCustomer) (r : CustomerRow) :
    custRowKey (updateCustomerRow c r) = custRowKey r := rfl

theorem mkCustomerRow_key (n : Nat) (c : RemoteCustomer) (k : Int) :
    custRowKey (mkCustomerRow n c k) = some k := rfl

/-- The nested product/variant loops are the flat upsert loop over the
flattened variant items. -/
theorem sync_products_foldl (remote : List RemoteProduct)
    (st : UpsertState ProductRow) :
    remote.foldl
      (fun st p =>
        upsertList variantKey prodRowKey mkProductRow updateProductRow
          (productItems p) st)
      st =
      upsertList variantKey prodRowKey mkProductRow updateProductRow
        (flattenRemoteProducts remote) st := by
  induction remote generalizing st with
  | nil => rfl
  | cons p rest ih =>
      simp only [List.foldl_cons, flattenRemoteProducts, List.map_cons,
        List.flatten_cons, upsertList_append]
      exact ih _

/-- Unfolding of `sync_products` through the flatten lemma. -/
theorem sync_products_run (remote : List RemoteProduct) (s : StoreState) :
    sync_products remote s =
      (⟨(prodSyncRun remote s).added, (prodSyncRun remote s).updated,
        (prodSyncRun remote s).skipped, remote.length⟩,
        { s with
          products := (prodSyncRun remote s).rows,
          next_product_id := (prodSyncRun remote s).next_id }) := by
  simp only [sync_products, prodSyncRun, sync_products_foldl]

/-- Unfolding of `sync_customers`. -/
theorem sync_customers_run (remote : List RemoteCustomer) (s : StoreState) :
    sync_customers remote s =
      (⟨(custSyncRun remote s).added, (custSyncRun remote s).updated,
        remote.length⟩,
        { s with
          customers := (custSyncRun remote s).rows,
          next_customer_id := (custSyncRun remote s).next_id }) := by
  simp only [sync_customers, custSyncRun]

/-- A second pass over the same records starting from a table that already
contains every processed key adds nothing and keeps the row count. -/
theorem upsert_second_pass_core {ι ρ : Type} {key : ι → Option Int}
    {rowKey : ρ → Option Int} {mk : Nat → ι → Int → ρ} {upd : ι → ρ → ρ}
    (hupd : ∀ i r, rowKey (upd i r) = rowKey r)
    (items : List ι) (rows2 : List ρ) (m : Nat)
    (hsub : ∀ k ∈ processedKeys key items ([] : List Int),
      k ∈ rowKeys rowKey rows2) :
    (upsertList key rowKey mk upd items ⟨rows2, m, 0, 0, 0, []⟩).added = 0 ∧
    (upsertList key rowKey mk upd items ⟨rows2, m, 0, 0, 0, []⟩).rows.length =
      rows2.length := by
  have hadd : (upsertList key rowKey mk upd items
      (⟨rows2, m, 0, 0, 0, []⟩ : UpsertState ρ)).added = 0 :=
    @added_upsertList_of_present ι ρ key rowKey mk upd hupd items
      ⟨rows2, m, 0, 0, 0, []⟩ hsub
  have hlen : (upsertList key rowKey mk upd items
        (⟨rows2, m, 0, 0, 0, []⟩ : UpsertState ρ)).rows.length + 0 =
      rows2.length + (upsertList key rowKey mk upd items
        (⟨rows2, m, 0, 0, 0, []⟩ : UpsertState ρ)).added :=
    length_upsertList items ⟨rows2, m, 0, 0, 0, []⟩
  exact ⟨hadd, by omega⟩

/-- C3: bulk sync is idempotent — a second `sync_products` pass (and likewise
a second `sync_customers` pass) over an unchanged remote collection reports
`added = 0` and leaves the local row count exactly as after the first pass. -/
theorem bulk_sync_idempotent (remoteP : List RemoteProduct)
    (remoteC : List RemoteCustomer) (s : StoreState) :
    ((sync_products remoteP (sync_products remoteP s).2).1.added = 0 ∧
      (sync_products remoteP (sync_products remoteP s).2).2.products.length =
        (sync_products remoteP s).2.products.length) ∧
    ((sync_customers remoteC (sync_customers remoteC s).2).1.added = 0 ∧
      (sync_customers remoteC (sync_customers remoteC s).2).2.customers.length =
        (sync_customers remoteC s).2.customers.length) := by
  constructor
  · simp only [sync_products_run, prodSyncRun]
    refine upsert_second_pass_core updateProductRow_key _ _ _ ?_
    intro k hk
    exact mem_rowKeys_upsertList updateProductRow_key mkProductRow_key _
      ⟨s.products, s.next_product_id, 0, 0, 0, []⟩ k (Or.inr hk)
  · simp only [sync_customers_run, custSyncRun]
    refine upsert_second_pass_core updateCustomerRow_key _ _ _ ?_
    intro k hk
    exact mem_rowKeys_upsertList updateCustomerRow_key mkCustomerRow_key _
      ⟨s.customers, s.next_customer_id, 0, 0, 0, []⟩ k (Or.inr hk)

/-- A pass over records containing some key, starting from an empty table,
yields exactly one row with that key, performs no updates, and its `added`
count equals the resulting row count. -/
theorem upsert_from_empty {ι ρ : Type} {key : ι → Option Int}
    {rowKey : ρ → Option Int} {mk : Nat → ι → Int → ρ} {upd : ι → ρ → ρ}
    (hupd : ∀ i r, rowKey (upd i r) = rowKey r)
    (hmk : ∀ n i k, rowKey (mk n i k) = some k)
    (items : List ι) (k : Int)
    (hocc : ∃ it ∈ items, key it = some k) :
    ((upsertList key rowKey mk upd items
        (⟨[], 0, 0, 0, 0, []⟩ : UpsertState ρ)).rows.filter
          (fun r => rowKey r == some k)).length = 1 ∧
    (upsertList key rowKey mk upd items
      (⟨[], 0, 0, 0, 0, []⟩ : UpsertState ρ)).updated = 0 ∧
    (upsertList key rowKey mk upd items
      (⟨[], 0, 0, 0, 0, []⟩ : UpsertState ρ)).added =
      (upsertList key rowKey mk upd items
        (⟨[], 0, 0, 0, 0, []⟩ : UpsertState ρ)).rows.length := by
  have hmem : k ∈ rowKeys rowKey (upsertList key rowKey mk upd items
      (⟨[], 0, 0, 0, 0, []⟩ : UpsertState ρ)).rows := by
    rcases mem_processedKeys_of_occurs items [] k hocc with h | h
    · simp at h
    · exact mem_rowKeys_upsertList hupd hmk items _ k (Or.inr h)
  have hnd : (rowKeys rowKey (upsertList key rowKey mk upd items
      (⟨[], 0, 0, 0, 0, []⟩ : UpsertState ρ)).rows).Nodup :=
    nodup_upsertList hupd hmk items _ (by simp [rowKeys])
  have hcount := List.count_eq_one_of_mem hnd hmem
  have hfilter : ((upsertList key rowKey mk upd items
      (⟨[], 0, 0, 0, 0, []⟩ : UpsertState ρ)).rows.filter
        (fun r => rowKey r == some k)).length = 1 := by
    rw [← List.countP_eq_length_filter, countP_rowKey_eq_count, hcount]
  have hupdated := @updated_upsertList_of_fresh ι ρ key rowKey mk upd hmk items
    ⟨[], 0, 0, 0, 0, []⟩ (by simp [rowKeys])
  have hlen : (upsertList key rowKey mk upd items
        (⟨[], 0, 0, 0, 0, []⟩ : UpsertState ρ)).rows.length + 0 =
      ([] : List ρ).length + (upsertList key rowKey mk upd items
        (⟨[], 0, 0, 0, 0, []⟩ : UpsertState ρ)).added :=
    length_upsertList items ⟨[], 0, 0, 0, 0, []⟩
  refine ⟨hfilter, hupdated, ?_⟩
  simp only [List.length_nil] at hlen
  omega

/-- C4: in-pass deduplication — a remote collection containing the same
external key twice (pagination duplication) yields, from an empty store,
exactly one local row for that key; the duplicate is counted neither as an
update (`updated = 0`) nor as an extra add (`added` equals the row count).
Stated for both the product and the customer bulk sync. -/
theorem in_pass_dedup (remoteP : List RemoteProduct) (k : Int)
    (remoteC : List RemoteCustomer) (k2 : Int)
    (h1 : 2 ≤ (flattenRemoteProducts remoteP).countP
      (fun it => variantKey it == some k))
    (h2 : 2 ≤ remoteC.countP (fun c => customerKey c == some k2)) :
    (((sync_products remoteP emptyStore).2.products.filter
        (fun r => prodRowKey r == some k)).length = 1 ∧
      (sync_products remoteP emptyStore).1.updated = 0 ∧
      (sync_products remoteP emptyStore).1.added =
        (sync_products remoteP emptyStore).2.products.length) ∧
    (((sync_customers remoteC emptyStore).2.customers.filter
        (fun r => custRowKey r == some k2)).length = 1 ∧
      (sync_customers remoteC emptyStore).1.updated = 0 ∧
      (sync_customers remoteC emptyStore).1.added =
        (sync_customers remoteC emptyStore).2.customers.length) := by
  have hocc1 : ∃ it ∈ flattenRemoteProducts remoteP, variantKey it = some k := by
    have hpos : 0 < (flattenRemoteProducts remoteP).countP
        (fun it => variantKey it == some k) := by omega
    rcases List.countP_pos.mp hpos with ⟨it, hm, hp⟩
    exact ⟨it, hm, by simpa using hp⟩
  have hocc2 : ∃ c ∈ remoteC, customerKey c = some k2 := by
    have hpos : 0 < remoteC.countP (fun c => customerKey c == some k2) := by omega
    rcases List.countP_pos.mp hpos with ⟨c, hm, hp⟩
    exact ⟨c, hm, by simpa using hp⟩
  constructor
  · simp only [sync_products_run, prodSyncRun]
    exact upsert_from_empty updateProductRow_key mkProductRow_key _ k hocc1
  · simp only [sync_customers_run, custSyncRun]
    exact upsert_from_empty updateCustomerRow_key mkCustomerRow_key _ k2 hocc2

/-- C4 witness: the concrete duplicated collections. -/
theorem in_pass_dedup_witness :
    (((sync_products dupRemoteProducts emptyStore).2.products.filter
        (fun r => prodRowKey r == some 5)).length = 1 ∧
      (sync_products dupRemoteProducts emptyStore).1.updated = 0 ∧
      (sync_products dupRemoteProducts emptyStore).1.added =
        (sync_products dupRemoteProducts emptyStore).2.products.length) ∧
    (((sync_customers dupRemoteCustomers emptyStore).2.customers.filter
        (fun r => custRowKey r == some 9)).length = 1 ∧
      (sync_customers dupRemoteCustomers emptyStore).1.updated = 0 ∧
      (sync_customers dupRemoteCustomers emptyStore).1.added =
        (sync_customers dupRemoteCustomers emptyStore).2.customers.length) :=
  in_pass_dedup dupRemoteProducts 5 dupRemoteCustomers 9 (by decide) (by decide)

/-- A processed variant item carries a truthy barcode. -/
theorem variantKey_barcode {it : VariantItem} {k : Int}
    (h : variantKey it = some k) : strTruthy it.variant.barcode = true := by
  by_cases hc : (strTruthy it.variant.barcode && intTruthy it.variant.id) = true
  · simp only [Bool.and_eq_true] at hc
    exact hc.1
  · rw [variantKey, if_neg hc] at h
    cases h

/-- C1 (amended): bulk product sync never persists or overwrites a row with
a null or empty barcode — it preserves the invariant that every product row
has a truthy barcode.  (Product webhooks do NOT preserve it, see the
counterexample.) -/
theorem sync_barcode_invariant (remote : List RemoteProduct) (s : StoreState)
    (h : ∀ r ∈ s.products, strTruthy r.barcode = true) :
    ∀ r ∈ (sync_products remote s).2.products, strTruthy r.barcode = true := by
  simp only [sync_products_run, prodSyncRun]
  refine upsertList_preserves (fun r => strTruthy r.barcode = true) ?_ ?_
    (flattenRemoteProducts remote) ⟨s.products, s.next_product_id, 0, 0, 0, []⟩ h
  · intro i r k hk
    exact variantKey_barcode hk
  · intro n i k hk
    exact variantKey_barcode hk

/-- C1 witness for the amended invariant, on the concrete remote catalog. -/
theorem sync_barcode_invariant_witness :
    (∀ r ∈ emptyStore.products, strTruthy r.barcode = true) ∧
    (∀ r ∈ (sync_products dupRemoteProducts emptyStore).2.products,
      strTruthy r.barcode = true) :=
  ⟨by simp [emptyStore],
    sync_barcode_invariant dupRemoteProducts emptyStore (by simp [emptyStore])⟩

/-- C1 counterexample: a product webhook whose variant has a null barcode
persists a product row with a null barcode (src/webhooks.py has no barcode
filter), refuting the claim that no operation ever persists such a row. -/
theorem webhook_persists_null_barcode :
    (handle_product_webhook noBarcodeProductPayload emptyStore).products.map
      (fun r => r.barcode) = [none] := by
  decide

/-- C10: clearing the products table empties exactly that table: customers,
orders (including their `product_id` references) and webhook events are
untouched, and the returned count is the number of deleted rows. -/
theorem clear_products_frame (s : StoreState) :
    (clear_products s).2.products = [] ∧
    (clear_products s).2.customers = s.customers ∧
    (clear_products s).2.orders = s.orders ∧
    (clear_products s).2.webhook_events = s.webhook_events ∧
    (clear_products s).1 = s.products.length ∧
    ∀ r ∈ s.orders, r ∈ (clear_products s).2.orders := by
  exact ⟨rfl, rfl, rfl, rfl, rfl, fun r hr => hr⟩

/-- C9: if page fetching fails after a prefix of successful, non-empty,
cursor-carrying pages, the paginated fetcher returns exactly the records of
that prefix — a partial, silently-truncated result — without consuming any
later response. -/
theorem paginated_fetch_stops_at_failure (α : Type) (good : List (RemotePage α))
    (rest : List (PageResponse α))
    (h : ∀ pg ∈ good, pg.records ≠ [] ∧ pg.has_next = true) :
    fetchAllPages (good.map PageResponse.success ++
        PageResponse.failure :: rest) =
      (good.map (fun pg => pg.records)).flatten := by
  induction good with
  | nil => simp [fetchAllPages]
  | cons pg tl ih =>
      have hpg := h pg (List.mem_cons_self _ _)
      have h1 : pg.records.isEmpty = false := by
        rcases hrec : pg.records with _ | ⟨a, l⟩
        · exact absurd hrec hpg.1
        · rfl
      simp only [List.map_cons, List.cons_append, fetchAllPages, h1,
        List.flatten_cons, hpg.2, if_true, Bool.false_eq_true, if_false,
        List.append_eq]
      rw [ih (fun q hq => h q (List.mem_cons_of_mem _ hq))]

/-- C9 witness: two successful pages, then a failure, then a further page
that is never consumed. -/
theorem paginated_fetch_stops_at_failure_witness :
    (∀ pg ∈ [c9Page1, c9Page2], pg.records ≠ [] ∧ pg.has_next = true) ∧
    fetchAllPages ([c9Page1, c9Page2].map PageResponse.success ++
        PageResponse.failure :: [PageResponse.success ⟨[9], false⟩]) =
      ([c9Page1, c9Page2].map (fun pg => pg.records)).flatten :=
  ⟨by decide,
    paginated_fetch_stops_at_failure Nat [c9Page1, c9Page2]
      [PageResponse.success ⟨[9], false⟩] (by decide)⟩

/-- C6: an order webhook for an external order id that already has local
line rows overwrites only the `status` field of the rows with that id
(setting it to the payload financial status, default pending), inserts no
rows, and leaves every other table unchanged — whatever the payload line
items are. -/
theorem order_webhook_status_only (p : OrderWebhookPayload) (s : StoreState)
    (h : ∃ r ∈ s.orders, r.shopify_order_id = p.id) :
    (handle_order_webhook p s).orders = s.orders.map (fun r =>
      if r.shopify_order_id == p.id then
        { r with status := p.financial_status.getD "pending" } else r) ∧
    (handle_order_webhook p s).orders.length = s.orders.length ∧
    (handle_order_webhook p s).products = s.products ∧
    (handle_order_webhook p s).customers = s.customers ∧
    (handle_order_webhook p s).webhook_events = s.webhook_events := by
  have hany : s.orders.any (fun r => r.shopify_order_id == p.id) = true := by
    rcases h with ⟨r, hm, he⟩
    exact List.any_eq_true.mpr ⟨r, hm, by simp [he]⟩
  simp [handle_order_webhook, hany]

/-- C6 witness: an orders/paid webhook with three line items hitting an
order that has two local rows (and one unrelated row). -/
theorem order_webhook_status_only_witness :
    (∃ r ∈ c6Store.orders, r.shopify_order_id = c6Payload.id) ∧
    ((handle_order_webhook c6Payload c6Store).orders = c6Store.orders.map (fun r =>
      if r.shopify_order_id == c6Payload.id then
        { r with status := c6Payload.financial_status.getD "pending" } else r) ∧
    (handle_order_webhook c6Payload c6Store).orders.length =
      c6Store.orders.length ∧
    (handle_order_webhook c6Payload c6Store).products = c6Store.products ∧
    (handle_order_webhook c6Payload c6Store).customers = c6Store.customers ∧
    (handle_order_webhook c6Payload c6Store).webhook_events =
      c6Store.webhook_events) :=
  ⟨by decide, order_webhook_status_only c6Payload c6Store (by decide)⟩

/-- The first-in-list element with positive stock, as a list split. -/
theorem find?_stock_split (l : List ProductRow)
    (h : ∃ p ∈ l, 0 < p.inventory_quantity) :
    ∃ pre q post, l = pre ++ q :: post ∧
      l.find? (fun r => decide (0 < r.inventory_quantity)) = some q ∧
      0 < q.inventory_quantity ∧ ∀ r ∈ pre, ¬ 0 < r.inventory_quantity := by
  induction l with
  | nil => simp at h
  | cons x xs ih =>
      by_cases hx : 0 < x.inventory_quantity
      · exact ⟨[], x, xs, rfl, by simp [List.find?_cons, hx], hx, by simp⟩
      · rcases h with ⟨p, hm, hp⟩
        rcases List.mem_cons.mp hm with rfl | hm
        · exact absurd hp hx
        · rcases ih ⟨p, hm, hp⟩ with ⟨pre, q, post, heq, hfind, hq, hpre⟩
          refine ⟨x :: pre, q, post, by simp [heq], ?_, hq, ?_⟩
          · rw [List.find?_cons_of_neg]
            · exact hfind
            · simpa using hx
          · intro r hr
            rcases List.mem_cons.mp hr with rfl | hr
            · exact hx
            · exact hpre r hr

/-- With no stocked element, the stock-first search finds nothing. -/
theorem find?_stock_none (l : List ProductRow)
    (h : ∀ p ∈ l, ¬ 0 < p.inventory_quantity) :
    l.find? (fun r => decide (0 < r.inventory_quantity)) = none := by
  rw [List.find?_eq_none]
  intro x hx
  simpa using h x hx

/-- C8: among the local variants matching the requested barcode, the order
endpoints use the first one (in lookup order) with positive inventory; when
none has positive inventory they fall back to the first match. -/
theorem stock_preferring_selection (rows : List ProductRow) (b : String) :
    ((∃ p ∈ rows.filter (fun r => r.barcode == some b),
        0 < p.inventory_quantity) →
      ∃ pre q post,
        rows.filter (fun r => r.barcode == some b) = pre ++ q :: post ∧
        selectVariant rows b = some q ∧ 0 < q.inventory_quantity ∧
        ∀ r ∈ pre, ¬ 0 < r.inventory_quantity) ∧
    ((∀ p ∈ rows.filter (fun r => r.barcode == some b),
        ¬ 0 < p.inventory_quantity) →
      selectVariant rows b = (rows.filter (fun r => r.barcode == some b)).head?) := by
  constructor
  · intro h
    rcases find?_stock_split _ h with ⟨pre, q, post, heq, hfind, hq, hpre⟩
    exact ⟨pre, q, post, heq, by simp [selectVariant, hfind], hq, hpre⟩
  · intro h
    have hnone := find?_stock_none _ h
    simp [selectVariant, hnone]

/-- C8 witness: with two same-barcode variants, zero stock first, the
stocked one is selected; with only the zero-stock variant, it is the
fallback. -/
theorem stock_preferring_selection_witness :
    (∃ pre q post,
      [c8Row0, c8Row1].filter (fun r => r.barcode == some "B8") =
        pre ++ q :: post ∧
      selectVariant [c8Row0, c8Row1] "B8" = some q ∧
      0 < q.inventory_quantity ∧ ∀ r ∈ pre, ¬ 0 < r.inventory_quantity) ∧
    selectVariant [c8Row0] "B8" =
      ([c8Row0].filter (fun r => r.barcode == some "B8")).head? :=
  ⟨(stock_preferring_selection [c8Row0, c8Row1] "B8").1 (by decide),
    (stock_preferring_selection [c8Row0] "B8").2 (by decide)⟩

/-- A failing discount check means the discount was positive and at least
the pre-discount total. -/
theorem applyDiscount_error_elim {d t : ℚ} {e : CartError}
    (h : applyDiscount d t = Except.error e) :
    e = CartError.discountTooLarge ∧ 0 < d ∧ t ≤ d := by
  by_cases h1 : 0 < d
  · by_cases h2 : t ≤ d
    · rw [applyDiscount, if_pos h1, if_pos h2] at h
      injection h with h3
      exact ⟨h3.symm, h1, h2⟩
    · rw [applyDiscount, if_pos h1, if_neg h2] at h
      simp at h
  · rw [applyDiscount, if_neg h1] at h
    simp at h

/-- A positive discount not below the total is rejected. -/
theorem applyDiscount_reject {d t : ℚ} (h1 : 0 < d) (h2 : t ≤ d) :
    applyDiscount d t = Except.error CartError.discountTooLarge := by
  rw [applyDiscount, if_pos h1, if_pos h2]

/-- A positive discount strictly below the total is subtracted. -/
theorem applyDiscount_accept {d t : ℚ} (h1 : 0 < d) (h2 : d < t) :
    applyDiscount d t = Except.ok (t - d) := by
  rw [applyDiscount, if_pos h1, if_neg (not_le.mpr h2)]

/-- Customer resolution can only fail with one of its two error codes. -/
theorem resolveCartCustomer_error_elim {env : CartEnv} {req : CartOrderReq}
    {s : StoreState} {e : CartError}
    (h : resolveCartCustomer env req s = Except.error e) :
    e = CartError.customerCreateFailed ∨ e = CartError.customerNotFound := by
  rcases hnc : req.new_customer with _ | nc <;>
    simp only [resolveCartCustomer, hnc] at h
  · rcases hfind : s.customers.find? (fun c => c.email == req.email) with _ | c0 <;>
      simp only [hfind] at h
    · rcases hsr : env.search_customer_resp.head? with _ | rc <;>
        simp only [hsr] at h
      · injection h with h2
        exact Or.inr h2.symm
      · simp at h
    · simp at h
  · rcases hfind : s.customers.find? (fun c => c.email == some nc.email) with _ | ex <;>
      simp only [hfind] at h
    · rcases hcc : env.create_customer_resp with _ | rc <;>
        simp only [hcc] at h
      · injection h with h2
        exact Or.inl h2.symm
      · simp at h
    · simp at h

/-- Customer resolution only ever touches the customers table (and its
counter): products, orders and webhook events pass through unchanged. -/
theorem resolveCartCustomer_frame {env : CartEnv} {req : CartOrderReq}
    {s : StoreState} {c : CustomerRow} {s1 : StoreState}
    (h : resolveCartCustomer env req s = Except.ok (c, s1)) :
    s1.products = s.products ∧ s1.orders = s.orders ∧
      s1.webhook_events = s.webhook_events := by
  rcases hnc : req.new_customer with _ | nc <;>
    simp only [resolveCartCustomer, hnc] at h
  · rcases hfind : s.customers.find? (fun c => c.email == req.email) with _ | c0 <;>
      simp only [hfind] at h
    · rcases hsr : env.search_customer_resp.head? with _ | rc <;>
        simp only [hsr] at h
      · simp at h
      · simp only [Except.ok.injEq, Prod.mk.injEq] at h
        rw [← h.2]
        exact ⟨rfl, rfl, rfl⟩
    · simp only [Except.ok.injEq, Prod.mk.injEq] at h
      rw [← h.2]
      exact ⟨rfl, rfl, rfl⟩
  · rcases hfind : s.customers.find? (fun c => c.email == some nc.email) with _ | ex <;>
      simp only [hfind] at h
    · rcases hcc : env.create_customer_resp with _ | rc <;>
        simp only [hcc] at h
      · simp at h
      · simp only [Except.ok.injEq, Prod.mk.injEq] at h
        rw [← h.2]
        exact ⟨rfl, rfl, rfl⟩
    · simp only [Except.ok.injEq, Prod.mk.injEq] at h
      rw [← h.2]
      exact ⟨rfl, rfl, rfl⟩

/-- Exhaustive outcome analysis of the post-customer cart pipeline: either
an error (one of three codes, state untouched, with the discount data when
it is the discount error), or the success shape — remote order id, one row
per accepted item, orders appended. -/
theorem cartAfterCustomer_cases (env : CartEnv) (req : CartOrderReq)
    (c : CustomerRow) (s1 : StoreState) :
    ((cartAfterCustomer env req c s1).2 = s1 ∧
      ∃ e, (cartAfterCustomer env req c s1).1 = Except.error e ∧
        (e = CartError.noValidProducts ∨ e = CartError.discountTooLarge ∨
          e = CartError.orderCreateFailed) ∧
        (e = CartError.discountTooLarge → 0 < req.discount ∧
          (processCartItems req.items s1.products).2.2 ≤ req.discount)) ∨
    (∃ oid fin, env.create_order_resp = some oid ∧
      applyDiscount req.discount (processCartItems req.items s1.products).2.2 =
        Except.ok fin ∧
      cartAfterCustomer env req c s1 =
        (Except.ok ⟨oid,
            (processCartItems req.items s1.products).2.1.map
              (mkLocalOrder oid c req.payment_method),
            (processCartItems req.items s1.products).2.2, fin⟩,
          { s1 with
            orders := s1.orders ++
              (processCartItems req.items s1.products).2.1.map
                (mkLocalOrder oid c req.payment_method) })) := by
  by_cases hemp : (processCartItems req.items s1.products).1.isEmpty
  · left
    refine ⟨by simp [cartAfterCustomer, hemp], CartError.noValidProducts,
      by simp [cartAfterCustomer, hemp], Or.inl rfl, ?_⟩
    intro h
    exact absurd h (by decide)
  · rcases hd : applyDiscount req.discount
        (processCartItems req.items s1.products).2.2 with e | fin
    · left
      have he := applyDiscount_error_elim hd
      refine ⟨by simp [cartAfterCustomer, hemp, hd],
        e, by simp [cartAfterCustomer, hemp, hd], Or.inr (Or.inl he.1), ?_⟩
      intro _
      exact he.2
    · rcases ho : env.create_order_resp with _ | oid
      · left
        refine ⟨by simp [cartAfterCustomer, hemp, hd, ho],
          CartError.orderCreateFailed,
          by simp [cartAfterCustomer, hemp, hd, ho], Or.inr (Or.inr rfl), ?_⟩
        intro h
        exact absurd h (by decide)
      · right
        exact ⟨oid, fin, rfl, rfl, by simp [cartAfterCustomer, hemp, hd, ho]⟩

/-- Exhaustive outcome analysis of the whole cart endpoint: either an
up-front / customer error with the store returned as is, or customer
resolution succeeded and the pipeline continues on the resolved store. -/
theorem create_order_cases (env : CartEnv) (req : CartOrderReq) (s : StoreState) :
    (∃ e, create_order_from_cart env req s = (Except.error e, s) ∧
      (e = CartError.emptyItems ∨ e = CartError.invalidPayment ∨
        e = CartError.neitherCustomer ∨ e = CartError.bothCustomer ∨
        e = CartError.customerCreateFailed ∨ e = CartError.customerNotFound)) ∨
    (∃ c s1, resolveCartCustomer env req s = Except.ok (c, s1) ∧
      create_order_from_cart env req s = cartAfterCustomer env req c s1) := by
  by_cases h1 : req.items.isEmpty
  · exact Or.inl ⟨CartError.emptyItems,
      by simp [create_order_from_cart, h1], Or.inl rfl⟩
  · by_cases h2 : req.payment_method = "cash" ∨ req.payment_method = "pos"
    · by_cases h3 : strTruthy req.email = false ∧ req.new_customer = none
      · exact Or.inl ⟨CartError.neitherCustomer,
          by simp [create_order_from_cart, h1, h2, h3],
          Or.inr (Or.inr (Or.inl rfl))⟩
      · by_cases h4 : strTruthy req.email = true ∧ req.new_customer ≠ none
        · exact Or.inl ⟨CartError.bothCustomer,
            by simp [create_order_from_cart, h1, h2, h3, h4],
            Or.inr (Or.inr (Or.inr (Or.inl rfl)))⟩
        · rcases hres : resolveCartCustomer env req s with e | ⟨c, s1⟩
          · refine Or.inl ⟨e,
              by simp [create_order_from_cart, h1, h2, h3, h4, hres], ?_⟩
            rcases resolveCartCustomer_error_elim hres with h | h
            · exact Or.inr (Or.inr (Or.inr (Or.inr (Or.inl h))))
            · exact Or.inr (Or.inr (Or.inr (Or.inr (Or.inr h))))
          · exact Or.inr ⟨c, s1, rfl,
              by simp [create_order_from_cart, h1, h2, h3, h4, hres]⟩
    · exact Or.inl ⟨CartError.invalidPayment,
        by simp [create_order_from_cart, h1, h2], Or.inr (Or.inl rfl)⟩

/-- Every local row written by the cart fan-out carries the remote order id. -/
theorem mkLocalOrder_oid (oid : Int) (c : CustomerRow) (pm : String)
    (pnd : PendingLocal) :
    (mkLocalOrder oid c pm pnd).shopify_order_id = some oid := by
  cases pnd <;> rfl

/-- C2 (amended): the four up-front validation errors (empty items, bad
payment method, neither or both customer selectors) leave the store exactly
unchanged; the two later validation errors (all items rejected, discount at
least the total) leave products, orders and webhook events unchanged but may
have already committed a customer row, because customer resolution commits
before those checks run. -/
theorem validation_error_frame (env : CartEnv) (req : CartOrderReq)
    (s : StoreState) :
    (((create_order_from_cart env req s).1 = Except.error CartError.emptyItems ∨
      (create_order_from_cart env req s).1 = Except.error CartError.invalidPayment ∨
      (create_order_from_cart env req s).1 = Except.error CartError.neitherCustomer ∨
      (create_order_from_cart env req s).1 = Except.error CartError.bothCustomer) →
      (create_order_from_cart env req s).2 = s) ∧
    (((create_order_from_cart env req s).1 = Except.error CartError.noValidProducts ∨
      (create_order_from_cart env req s).1 = Except.error CartError.discountTooLarge) →
      ((create_order_from_cart env req s).2.products = s.products ∧
        (create_order_from_cart env req s).2.orders = s.orders ∧
        (create_order_from_cart env req s).2.webhook_events = s.webhook_events)) := by
  rcases create_order_cases env req s with ⟨e, heq, _⟩ | ⟨c, s1, hres, heq⟩
  · constructor
    · intro _
      rw [heq]
    · intro _
      rw [heq]
      exact ⟨rfl, rfl, rfl⟩
  · have hframe := resolveCartCustomer_frame hres
    rcases cartAfterCustomer_cases env req c s1 with
      ⟨hst, e, herr, hmem, _⟩ | ⟨oid, fin, ho, hd, hsucc⟩
    · constructor
      · intro h
        rw [heq] at h
        rcases hmem with rfl | rfl | rfl <;>
          rcases h with h | h | h | h <;> rw [herr] at h <;> simp at h
      · intro _
        rw [heq, hst]
        exact hframe
    · constructor
      · intro h
        rw [heq, hsucc] at h
        rcases h with h | h | h | h <;> simp at h
      · intro h
        rw [heq, hsucc] at h
        rcases h with h | h <;> simp at h

/-- C2 counterexample: a request failing the all-items-rejected validation
(its only item is an empty-titled custom item) still commits a customer row
fetched from the remote search — the customers table is mutated although a
validation error is reported. -/
theorem validation_after_customer_commit :
    (create_order_from_cart c2Env c2Req emptyStore).1 =
      Except.error CartError.noValidProducts ∧
    (create_order_from_cart c2Env c2Req emptyStore).2.customers ≠
      emptyStore.customers := by
  decide

/-- C2 witness: the empty-items validation leaves the store untouched, and
the all-items-rejected validation leaves products, orders and webhook
events untouched. -/
theorem validation_error_frame_witness :
    (create_order_from_cart c2Env c2EmptyReq emptyStore).2 = emptyStore ∧
    ((create_order_from_cart c2Env c2Req emptyStore).2.products =
        emptyStore.products ∧
      (create_order_from_cart c2Env c2Req emptyStore).2.orders =
        emptyStore.orders ∧
      (create_order_from_cart c2Env c2Req emptyStore).2.webhook_events =
        emptyStore.webhook_events) :=
  ⟨(validation_error_frame c2Env c2EmptyReq emptyStore).1 (Or.inl (by decide)),
    (validation_error_frame c2Env c2Req emptyStore).2 (Or.inl (by decide))⟩

/-- C7: when a cart checkout succeeds, exactly one local order row is
inserted per accepted cart item (rejected items and the synthetic discount
line get none), every inserted row carries the one remote order id, the rows
are appended to the orders table in one commit, and the products table is
unchanged; and if the remote order-creation call fails, no order row is
written at all. -/
theorem order_line_fanout (env : CartEnv) (req : CartOrderReq) (s : StoreState) :
    (∀ res s2, create_order_from_cart env req s = (Except.ok res, s2) →
      res.created_orders.length =
        (processCartItems req.items s.products).2.1.length ∧
      (∀ r ∈ res.created_orders, r.shopify_order_id = some res.shopify_order_id) ∧
      s2.orders = s.orders ++ res.created_orders ∧
      s2.products = s.products) ∧
    (env.create_order_resp = none →
      (create_order_from_cart env req s).2.orders = s.orders) := by
  constructor
  · intro res s2 h
    rcases create_order_cases env req s with ⟨e, heq, _⟩ | ⟨c, s1, hres, heq⟩
    · rw [heq] at h
      simp at h
    · have hframe := resolveCartCustomer_frame hres
      rw [heq] at h
      rcases cartAfterCustomer_cases env req c s1 with
        ⟨hst, e, herr, _, _⟩ | ⟨oid, fin, ho, hd, hsucc⟩
      · have h1 : (cartAfterCustomer env req c s1).1 = Except.ok res := by
          rw [h]
        rw [herr] at h1
        simp at h1
      · rw [hsucc, Prod.mk.injEq] at h
        obtain ⟨hfst, hsnd⟩ := h
        injection hfst with hfst
        subst hfst
        subst hsnd
        refine ⟨by simp [hframe.1], ?_, ?_, hframe.1⟩
        · intro r hr
          rcases List.mem_map.mp hr with ⟨pnd, _, rfl⟩
          exact mkLocalOrder_oid oid c req.payment_method pnd
        · show s1.orders ++ (processCartItems req.items s1.products).2.1.map
              (mkLocalOrder oid c req.payment_method) =
            s.orders ++ (processCartItems req.items s1.products).2.1.map
              (mkLocalOrder oid c req.payment_method)
          rw [hframe.2.1]
  · intro ho
    rcases create_order_cases env req s with ⟨e, heq, _⟩ | ⟨c, s1, hres, heq⟩
    · rw [heq]
    · rw [heq]
      rcases cartAfterCustomer_cases env req c s1 with
        ⟨hst, _⟩ | ⟨oid, fin, ho2, _, _⟩
      · rw [hst, (resolveCartCustomer_frame hres).2.1]
      · rw [ho] at ho2
        simp at ho2


/-- C7 witness: the cart with three accepted items and one rejected
empty-titled custom item produces exactly three rows sharing remote order
id 905. -/
theorem order_line_fanout_witness :
    create_order_from_cart c7Env c7Req c7Store = (Except.ok c7Res, c7Store2) ∧
    (c7Res.created_orders.length =
        (processCartItems c7Req.items c7Store.products).2.1.length ∧
      (∀ r ∈ c7Res.created_orders,
        r.shopify_order_id = some c7Res.shopify_order_id) ∧
      c7Store2.orders = c7Store.orders ++ c7Res.created_orders ∧
      c7Store2.products = c7Store.products) := by
  have h : create_order_from_cart c7Env c7Req c7Store =
      (Except.ok c7Res, c7Store2) := by
    simp [create_order_from_cart, resolveCartCustomer, cartAfterCustomer,
      processCartItems, acceptItem, selectVariant, applyDiscount, mkLocalOrder,
      customerRowFromRemote, c7Env, c7Req, c7Store, c7Prod, c7Customer, c7Res,
      c7Store2, strTruthy, intTruthy]
    norm_num [mkLocalOrder]
    intro hfalse
    exact absurd hfalse (by simp)
  exact ⟨h, (order_line_fanout c7Env c7Req c7Store).1 c7Res c7Store2 h⟩

/-- C5 (amended): the discount boundary.  For carts the rejection check only
runs for a positive discount: whenever 0 < d and d is at least the
pre-discount total T the request fails and no order row is written, and
whenever 0 < d < T a checkout that reaches the remote call succeeds with
final amount T - d; a zero discount is never checked (see the
counterexample: T = 0, d = 0 is accepted).  For manual orders the check is
unconditional: d >= price * quantity is always rejected with the store
unchanged, and d < price * quantity succeeds with final amount
price * quantity - d. -/
theorem discount_boundary (env : CartEnv) (req : CartOrderReq) (s : StoreState)
    (menv : CartEnv) (mreq : ManualOrderReq) (ms : StoreState) :
    (0 < req.discount →
      (processCartItems req.items s.products).2.2 ≤ req.discount →
      (∀ res s2, create_order_from_cart env req s ≠ (Except.ok res, s2)) ∧
        (create_order_from_cart env req s).2.orders = s.orders) ∧
    (∀ c s1 oid,
      resolveCartCustomer env req s = Except.ok (c, s1) →
      req.items.isEmpty = false →
      (req.payment_method = "cash" ∨ req.payment_method = "pos") →
      ((strTruthy req.email = true ∧ req.new_customer = none) ∨
        (strTruthy req.email = false ∧ req.new_customer ≠ none)) →
      (processCartItems req.items s.products).1 ≠ [] →
      0 < req.discount →
      req.discount < (processCartItems req.items s.products).2.2 →
      env.create_order_resp = some oid →
      ∃ res s2, create_order_from_cart env req s = (Except.ok res, s2) ∧
        res.final_amount =
          (processCartItems req.items s.products).2.2 - req.discount) ∧
    ((mreq.price * (mreq.quantity : ℚ) ≤ mreq.discount →
        (∀ res s2, create_manual_order menv mreq ms ≠ (Except.ok res, s2)) ∧
          (create_manual_order menv mreq ms).2 = ms) ∧
      (mreq.title ≠ "" → 0 < mreq.price →
        (mreq.payment_method = "cash" ∨ mreq.payment_method = "pos") →
        1 ≤ mreq.quantity →
        mreq.discount < mreq.price * (mreq.quantity : ℚ) →
        ∀ oid, menv.create_order_resp = some oid →
          ∃ res s2, create_manual_order menv mreq ms = (Except.ok res, s2) ∧
            res.final_amount =
              mreq.price * (mreq.quantity : ℚ) - mreq.discount)) := by
  refine ⟨?_, ?_, ?_, ?_⟩
  · intro hd hT
    constructor
    · intro res s2 hok
      rcases create_order_cases env req s with ⟨e, heq, _⟩ | ⟨c, s1, hres, heq⟩
      · have := heq.symm.trans hok
        simp at this
      · rw [heq] at hok
        rcases cartAfterCustomer_cases env req c s1 with
          ⟨hst, e, herr, _, _⟩ | ⟨oid, fin, ho, hdisc, hsucc⟩
        · have h1 : (cartAfterCustomer env req c s1).1 = Except.ok res := by
            rw [hok]
          have := herr.symm.trans h1
          simp at this
        · rw [(resolveCartCustomer_frame hres).1, applyDiscount_reject hd hT] at hdisc
          simp at hdisc
    · rcases create_order_cases env req s with ⟨e, heq, _⟩ | ⟨c, s1, hres, heq⟩
      · rw [heq]
      · rw [heq]
        rcases cartAfterCustomer_cases env req c s1 with
          ⟨hst, _⟩ | ⟨oid, fin, ho, hdisc, hsucc⟩
        · rw [hst, (resolveCartCustomer_frame hres).2.1]
        · rw [(resolveCartCustomer_frame hres).1, applyDiscount_reject hd hT] at hdisc
          simp at hdisc
  · intro c s1 oid hres hne hpm hsel hline hd hlt ho
    have hfr := resolveCartCustomer_frame hres
    have hemp : (processCartItems req.items s1.products).1.isEmpty = false := by
      rw [hfr.1]
      rcases hl : (processCartItems req.items s.products).1 with _ | ⟨a, l⟩
      · exact absurd hl hline
      · simp [hl]
    have happ : applyDiscount req.discount
        (processCartItems req.items s1.products).2.2 =
        Except.ok ((processCartItems req.items s.products).2.2 - req.discount) := by
      rw [hfr.1]
      exact applyDiscount_accept hd hlt
    have hc1 : ¬(req.items.isEmpty = true) := by
      rw [hne]
      simp
    have hc3 : ¬(strTruthy req.email = false ∧ req.new_customer = none) := by
      rcases hsel with ⟨h1, h2⟩ | ⟨h1, h2⟩
      · intro hcon
        rw [h1] at hcon
        simp at hcon
      · intro hcon
        exact h2 hcon.2
    have hc4 : ¬(strTruthy req.email = true ∧ req.new_customer ≠ none) := by
      rcases hsel with ⟨h1, h2⟩ | ⟨h1, h2⟩
      · intro hcon
        exact hcon.2 h2
      · intro hcon
        rw [h1] at hcon
        simp at hcon
    refine ⟨⟨oid, (processCartItems req.items s1.products).2.1.map
        (mkLocalOrder oid c req.payment_method),
        (processCartItems req.items s1.products).2.2,
        (processCartItems req.items s.products).2.2 - req.discount⟩,
      { s1 with
        orders := s1.orders ++ (processCartItems req.items s1.products).2.1.map
          (mkLocalOrder oid c req.payment_method) },
      ?_, rfl⟩
    simp only [create_order_from_cart]
    rw [if_neg hc1, if_neg (not_not_intro hpm), if_neg hc3, if_neg hc4]
    simp only [hres, cartAfterCustomer, hemp, Bool.false_eq_true, if_false,
      happ, ho]
  · intro hd
    constructor
    · intro res s2 hok
      by_cases h1 : mreq.title = ""
      · simp [create_manual_order, h1] at hok
      · by_cases h2 : mreq.price ≤ 0
        · simp [create_manual_order, h1, h2] at hok
        · by_cases h3 : mreq.payment_method = "cash" ∨ mreq.payment_method = "pos"
          · by_cases h4 : mreq.quantity < 1
            · simp [create_manual_order, h1, h2, h3, h4] at hok
            · simp [create_manual_order, h1, h2, h3, h4, hd] at hok
          · simp [create_manual_order, h1, h2, h3] at hok
    · by_cases h1 : mreq.title = ""
      · simp [create_manual_order, h1]
      · by_cases h2 : mreq.price ≤ 0
        · simp [create_manual_order, h1, h2]
        · by_cases h3 : mreq.payment_method = "cash" ∨ mreq.payment_method = "pos"
          · by_cases h4 : mreq.quantity < 1
            · simp [create_manual_order, h1, h2, h3, h4]
            · simp [create_manual_order, h1, h2, h3, h4, hd]
          · simp [create_manual_order, h1, h2, h3]
  · intro h1 h2 h3 h4 h5 oid ho
    simp only [create_manual_order]
    rw [if_neg h1, if_neg (not_le.mpr h2), if_neg (not_not_intro h3),
      if_neg (not_lt.mpr h4), if_neg (not_le.mpr h5)]
    simp only [ho]
    exact ⟨_, _, rfl, rfl⟩

/-- C5 counterexample: a cart whose single accepted item is priced 0 with
discount 0 has discount = pre-discount total (both 0), yet the request is
ACCEPTED and an order row is written — the code only checks the discount
when it is positive, refuting the claim that every d >= T is rejected. -/
theorem zero_discount_zero_total_accepted :
    (create_order_from_cart c5Env c5Req c5Store).1 = Except.ok c5Expected ∧
    (create_order_from_cart c5Env c5Req c5Store).2.orders ≠ [] ∧
    c5Req.discount = 0 ∧
    (processCartItems c5Req.items c5Store.products).2.2 = 0 := by
  have h : create_order_from_cart c5Env c5Req c5Store =
      (Except.ok c5Expected,
        { c5Store with orders := c5Expected.created_orders }) := by
    simp [create_order_from_cart, resolveCartCustomer, cartAfterCustomer,
      processCartItems, acceptItem, selectVariant, applyDiscount, mkLocalOrder,
      customerRowFromRemote, c5Env, c5Req, c5Store, zeroPriceRow, c5Customer,
      c5Expected, strTruthy, intTruthy]
  rw [h]
  refine ⟨rfl, by simp [c5Expected], rfl, ?_⟩
  simp [processCartItems, acceptItem, selectVariant, c5Req, c5Store,
    zeroPriceRow, strTruthy]

/-- C5 witness: concrete instances for all four amended boundary cases. -/
theorem discount_boundary_witness :
    ((∀ res s2,
        create_order_from_cart c2Env c5aReq emptyStore ≠ (Except.ok res, s2)) ∧
      (create_order_from_cart c2Env c5aReq emptyStore).2.orders =
        emptyStore.orders) ∧
    (∃ res s2, create_order_from_cart c7Env c5bReq c7Store = (Except.ok res, s2) ∧
      res.final_amount =
        (processCartItems c5bReq.items c7Store.products).2.2 - c5bReq.discount) ∧
    ((∀ res s2,
        create_manual_order c2Env c5mRejectReq emptyStore ≠ (Except.ok res, s2)) ∧
      (create_manual_order c2Env c5mRejectReq emptyStore).2 = emptyStore) ∧
    (∃ res s2, create_manual_order c2Env c5mAcceptReq emptyStore =
        (Except.ok res, s2) ∧
      res.final_amount =
        c5mAcceptReq.price * (c5mAcceptReq.quantity : ℚ) - c5mAcceptReq.discount) := by
  refine ⟨?_, ?_, ?_, ?_⟩
  · exact (discount_boundary c2Env c5aReq emptyStore c2Env c5mRejectReq
      emptyStore).1 (by norm_num [c5aReq])
      (by norm_num [c5aReq, processCartItems, emptyStore])
  · exact (discount_boundary c7Env c5bReq c7Store c2Env c5mRejectReq
      emptyStore).2.1 c7Customer c7Store 905 (by decide) (by decide) (by decide)
      (by decide)
      (by
        simp [processCartItems, acceptItem, selectVariant, c5bReq, c7Store,
          c7Prod, strTruthy])
      (by norm_num [c5bReq])
      (by
        simp [processCartItems, acceptItem, selectVariant, c5bReq, c7Store,
          c7Prod, strTruthy]
        norm_num)
      rfl
  · exact (discount_boundary c2Env c5aReq emptyStore c2Env c5mRejectReq
      emptyStore).2.2.1 (by norm_num [c5mRejectReq])
  · exact (discount_boundary c2Env c5aReq emptyStore c2Env c5mAcceptReq
      emptyStore).2.2.2 (by decide) (by norm_num [c5mAcceptReq]) (by decide)
      (by decide) (by norm_num [c5mAcceptReq]) 900 rfl
